import Mathlib

/-!
Verification development for the cultural-heritage metadata extraction modules
(`keyword_dictionary.py` and `data_mapper.py`).  The Python code is shallowly
embedded: dictionaries/JSON records become the inductive type `JVal`, Python
strings become Lean `String`/`List Char`, Python `set` objects over strings are
modelled as duplicate-free lists built by first-insertion (the claims proved
below never depend on CPython's hash iteration order: set contents are either
sorted, reordered by a priority list, or only tested for membership), and code
that can raise returns `Except String` (the error string names the Python
exception class).  Regex matching (`re.search`/`re.findall`) is implemented
directly for the concrete patterns appearing in the source; `\w`, `\d`, `\s`
and case folding are modelled at ASCII level.
-/

namespace DH

/-- ASCII model of the regex word-character class `\w` (letters, digits, `_`). -/
def isWordChar (c : Char) : Bool := c.isAlphanum || c = '_'

/-- ASCII model of Python `str.lower` (as with Lean, only `A`-`Z` fold). -/
def lowerChar (c : Char) : Char := c.toLower

def lowerL (s : List Char) : List Char := s.map lowerChar

/-- Python `str.lower`. -/
def pyLower (s : String) : String := ⟨lowerL s.data⟩

/-- Python `str.strip()` (no argument): drop leading and trailing whitespace. -/
def stripL (s : List Char) : List Char :=
  ((s.dropWhile Char.isWhitespace).reverse.dropWhile Char.isWhitespace).reverse

def pyStrip (s : String) : String := ⟨stripL s.data⟩

/-- `needle` is a prefix of `hay`. -/
def startsWithL : List Char → List Char → Bool
  | [], _ => true
  | _ :: _, [] => false
  | a :: as, b :: bs => a == b && startsWithL as bs

/-- `needle in hay` for Python strings (substring containment). -/
def containsSub (needle : List Char) : List Char → Bool
  | [] => startsWithL needle []
  | c :: rest => startsWithL needle (c :: rest) || containsSub needle rest

/-- Python `needle in hay` on `String`s. -/
def containsStr (needle hay : String) : Bool := containsSub needle.data hay.data

/-- Python `s.startswith(p)` on `String`s. -/
def pyStartsWith (s p : String) : Bool := startsWithL p.data s.data

/-- Python `s.replace(a, b)` for single characters. -/
def replaceChar (a b : Char) (s : String) : String :=
  ⟨s.data.map (fun c => if c == a then b else c)⟩

/-- Python `str.capitalize()`: first character upper-cased, rest lower-cased. -/
def pyCapitalize (s : String) : String :=
  match s.data with
  | [] => ""
  | c :: rest => ⟨c.toUpper :: lowerL rest⟩

/-- Lexicographic (code-point) `<=` on strings, as used by Python `sorted`. -/
def strLeL : List Char → List Char → Bool
  | [], _ => true
  | _ :: _, [] => false
  | a :: as, b :: bs => a.val < b.val || (a == b && strLeL as bs)

def strLe (a b : String) : Bool := strLeL a.data b.data

/-- Insertion sort, modelling Python `sorted` on a list of strings. -/
def insertSorted (x : String) : List String → List String
  | [] => [x]
  | y :: ys => if strLe x y then x :: y :: ys else y :: insertSorted x ys

def sortStrings : List String → List String
  | [] => []
  | x :: xs => insertSorted x (sortStrings xs)

/-- Insertion sort on integers, modelling Python `sorted` on years. -/
def insertSortedInt (x : Int) : List Int → List Int
  | [] => [x]
  | y :: ys => if x ≤ y then x :: y :: ys else y :: insertSortedInt x ys

def sortInts : List Int → List Int
  | [] => []
  | x :: xs => insertSortedInt x (sortInts xs)

def listMinInt (x : Int) : List Int → Int
  | [] => x
  | y :: ys => listMinInt (if y < x then y else x) ys

def listMaxInt (x : Int) : List Int → Int
  | [] => x
  | y :: ys => listMaxInt (if y > x then y else x) ys

/-- First-occurrence deduplication with an accumulator of already-seen values.
Deterministic model of Python `list(set(xs))` for small string sets (the claims
below never depend on CPython's set iteration order). -/
def dedupFirstAux (seen : List String) : List String → List String
  | [] => []
  | x :: xs => if x ∈ seen then dedupFirstAux seen xs else x :: dedupFirstAux (x :: seen) xs

def dedupFirst (l : List String) : List String := dedupFirstAux [] l

/-- Set-insert for the `List String` model of a Python `set` of strings. -/
def insertS (s : List String) (x : String) : List String :=
  if x ∈ s then s else s ++ [x]

/-- Set-remove (`set.remove` / comprehension filter). -/
def eraseS (s : List String) (x : String) : List String := s.filter (· ≠ x)

/-! ## The JSON-like data model of input items -/

/-- JSON-like Python values as they occur in the catalogue records: `None`,
booleans, integers, strings, lists and string-keyed dicts. -/
inductive JVal where
  | null
  | bool (b : Bool)
  | int (n : Int)
  | str (s : String)
  | list (xs : List JVal)
  | dict (kvs : List (String × JVal))

instance : Inhabited JVal := ⟨JVal.null⟩

/-- Python truthiness of a `JVal`. -/
def truthy : JVal → Bool
  | .null => false
  | .bool b => b
  | .int n => n ≠ 0
  | .str s => s ≠ ""
  | .list xs => !xs.isEmpty
  | .dict kvs => !kvs.isEmpty

/-- Lookup in the association-list model of a dict. -/
def jlookup (kvs : List (String × JVal)) (k : String) : Option JVal :=
  match kvs.find? (fun p => p.1 == k) with
  | some p => some p.2
  | none => none

/-- `k in item` / `item[k]` for dict values; `none` for non-dicts or missing. -/
def jget (item : JVal) (k : String) : Option JVal :=
  match item with
  | .dict kvs => jlookup kvs k
  | _ => none

/-- Python `item.get(k, d)`: raises `AttributeError` when `item` is not a dict. -/
def pyGetE (item : JVal) (k : String) (d : JVal) : Except String JVal :=
  match item with
  | .dict kvs => .ok ((jlookup kvs k).getD d)
  | _ => .error "AttributeError"

/-- Comma-join of rendered elements, for `pyRepr`. -/
def joinComma : List String → String
  | [] => ""
  | [x] => x
  | x :: y :: rest => x ++ ", " ++ joinComma (y :: rest)

mutual
/-- Python `repr` of a `JVal` (string escaping is not modelled: strings are
rendered between plain single quotes, which is exact for quote-free strings). -/
def pyRepr : JVal → String
  | .null => "None"
  | .bool true => "True"
  | .bool false => "False"
  | .int n => toString n
  | .str s => "\x27" ++ s ++ "\x27"
  | .list xs => "[" ++ joinComma (pyReprList xs) ++ "]"
  | .dict kvs => "\x7b" ++ joinComma (pyReprPairs kvs) ++ "\x7d"

def pyReprList : List JVal → List String
  | [] => []
  | v :: rest => pyRepr v :: pyReprList rest

def pyReprPairs : List (String × JVal) → List String
  | [] => []
  | (k, v) :: rest => ("\x27" ++ k ++ "\x27: " ++ pyRepr v) :: pyReprPairs rest
end

/-- Python `str(v)`. -/
def pyStr : JVal → String
  | .str s => s
  | v => pyRepr v

/-- `DataMapper._flatten_list` applied to the elements of a list: nested lists
are flattened recursively, `None` entries are dropped, and every other element
is rendered with `str`. -/
def flattenListAux : List JVal → List String
  | [] => []
  | .list xs :: rest => flattenListAux xs ++ flattenListAux rest
  | .null :: rest => flattenListAux rest
  | v :: rest => pyStr v :: flattenListAux rest

/-- `DataMapper._flatten_list`. -/
def flattenList : JVal → List String
  | .list xs => flattenListAux xs
  | .null => []
  | v => [pyStr v]

/-! ## The keyword dictionary (`KeywordDictionary._init_keywords`) -/

/-- `KeywordDictionary.color_keywords`. -/
def colorKeywords : List (String × List String) := [
  ("blue and white", ["blue", "white", "blue and white", "underglaze blue", "cobalt blue",
    "qinghua", "blue white", "delft blue", "delfts blauw"]),
  ("celadon", ["celadon", "green glaze", "greenish", "longquan celadon", "yue celadon",
    "greenware", "sea green"]),
  ("famille rose", ["famille rose", "pink", "rose", "fencai", "yangcai", "enamel pink"]),
  ("famille verte", ["famille verte", "green family", "kangxi palette", "wucai"]),
  ("red", ["red", "copper red", "iron red", "sang de boeuf", "oxblood", "jihong", "crimson"]),
  ("yellow", ["yellow", "imperial yellow", "egg yolk", "lemon yellow", "mustard"]),
  ("black", ["black", "mirror black", "tenmoku", "jian ware"]),
  ("brown", ["brown", "cafe-au-lait", "chocolate", "tea dust", "coffee"]),
  ("purple", ["purple", "aubergine", "violet", "lavender", "plum"]),
  ("green", ["green", "apple green", "cucumber green", "emerald", "jade"]),
  ("gold", ["gold", "gilt", "gilded", "golden", "gilding"]),
  ("multicolor", ["polychrome", "multicolor", "wucai", "doucai", "contrasting colors", "five color"])]

/-- `KeywordDictionary.decoration_themes`. -/
def decorationThemes : List (String × List String) := [
  ("floral", ["flower", "floral", "peony", "lotus", "chrysanthemum",
    "prunus", "bamboo", "pine", "plant", "leaf", "branch",
    "bloom", "blossom", "orchid", "camellia", "magnolia",
    "plum blossom", "rose", "lily", "iris", "narcissus",
    "tree", "foliage", "vine", "spray", "flowers", "petals",
    "stems", "buds", "willow", "tulip"]),
  ("figural", ["figure", "people", "scholar", "lady", "child", "immortal",
    "deity", "warrior", "official", "sage", "goddess",
    "emperor", "court", "attendant", "maiden", "monk",
    "buddha", "bodhisattva", "luohan", "guanyin", "figures",
    "person", "man", "woman", "boy", "dutch figure", "european figure"]),
  ("animal", ["dragon", "phoenix", "bird", "crane", "fish", "deer",
    "lion", "tiger", "horse", "butterfly", "qilin", "foo dog",
    "bat", "magpie", "peacock", "eagle", "carp", "goldfish",
    "mandarin duck", "rooster", "rabbit", "birds", "animals"]),
  ("landscape", ["landscape", "mountain", "river", "pavilion", "garden",
    "rock", "tree", "cloud", "moon", "scenery", "waterfall",
    "bridge", "pagoda", "temple", "island", "boat", "shore",
    "cliff", "wave", "mist", "mountains", "hills", "valley", "lake",
    "windmill", "canal", "dutch landscape"]),
  ("geometric", ["geometric", "pattern", "band", "border", "scroll",
    "lattice", "diaper", "key-fret", "meander", "lozenge",
    "checkerboard", "zigzag", "diamond", "hexagon", "octagon",
    "circle", "square", "triangle", "stripes", "dots", "lines"]),
  ("calligraphy", ["character", "inscription", "poem", "text", "writing",
    "calligraphy", "seal script", "kaishu", "poetry",
    "verse", "couplet", "mark", "characters", "script"]),
  ("symbolic", ["ruyi", "shou", "fu", "lu", "xi", "bagua", "taiji",
    "yin yang", "endless knot", "auspicious", "symbol",
    "eight treasures", "buddhist emblems", "daoist emblems",
    "coat of arms", "heraldic"])]

/-- `KeywordDictionary.shape_keywords`. -/
def shapeKeywords : List (String × List String) := [
  ("bowl", ["bowl", "deep bowl", "shallow bowl", "tea bowl", "rice bowl", "lotus bowl"]),
  ("vase", ["vase", "meiping", "baluster vase", "bottle vase", "gu", "hu", "zun",
    "tulip vase"]),
  ("jar", ["jar", "ginger jar", "storage jar", "covered jar", "lidded jar", "tobacco jar"]),
  ("plate", ["plate", "dish", "charger", "saucer", "platter"]),
  ("cup", ["cup", "tea cup", "wine cup", "stem cup", "beaker", "teacup"]),
  ("pot", ["pot", "teapot", "wine pot", "water pot", "ewer", "kettle", "coffee pot"]),
  ("bottle", ["bottle", "moon flask", "double gourd", "pilgrim flask", "snuff bottle"]),
  ("box", ["box", "covered box", "seal box", "cosmetic box", "container"]),
  ("censer", ["censer", "incense burner", "tripod censer", "brazier"]),
  ("ewer", ["ewer", "wine ewer", "water ewer", "spouted vessel", "pitcher"]),
  ("tile", ["tile", "wall tile", "floor tile", "decorative tile"])]

/-- `KeywordDictionary.function_keywords`. -/
def functionKeywords : List (String × List String) := [
  ("tea", ["tea", "tea bowl", "teapot", "tea cup", "tea ceremony", "tea service"]),
  ("wine", ["wine", "wine cup", "wine pot", "wine vessel", "drinking"]),
  ("dining", ["dining", "eating", "food", "serving", "table", "banquet", "tableware"]),
  ("ceremonial", ["ceremonial", "ritual", "religious", "altar", "offering", "sacrifice", "temple"]),
  ("storage", ["storage", "container", "jar", "keeping", "preservation", "vessel", "tobacco"]),
  ("decorative", ["decorative", "display", "ornamental", "aesthetic", "ornament"]),
  ("scholarly", ["scholar", "study", "desk", "brush", "ink", "literati", "studio", "writing"]),
  ("cosmetic", ["cosmetic", "powder", "rouge", "mirror", "toiletry", "makeup"]),
  ("export", ["export", "trade", "commercial", "overseas", "maritime", "shipping", "canton"]),
  ("pharmaceutical", ["pharmaceutical", "apothecary", "medicine", "drug jar"])]

/-- `KeywordDictionary.material_keywords`. -/
def materialKeywords : List (String × List String) := [
  ("porcelain", ["porcelain", "hard-paste", "soft-paste", "high-fired", "paste porcelain",
    "chinese porcelain"]),
  ("stoneware", ["stoneware", "stone ware", "proto-porcelain"]),
  ("earthenware", ["earthenware", "pottery", "terracotta", "ceramics", "faience", "delftware"]),
  ("ceramic", ["ceramic", "pottery"])]

/-- `KeywordDictionary.glaze_keywords`. -/
def glazeKeywords : List (String × List String) := [
  ("celadon", ["celadon", "longquan", "guan", "ge", "greenware", "yue ware", "ru ware"]),
  ("blue_white", ["blue and white", "underglaze blue", "cobalt", "qinghua", "ming blue", "delft blue"]),
  ("famille_rose", ["famille rose", "fencai", "overglaze enamel", "yangcai", "rose enamel"]),
  ("famille_verte", ["famille verte", "wucai", "five color", "kangxi colors"]),
  ("monochrome", ["monochrome", "single color", "solid glaze", "plain"]),
  ("crackle", ["crackle", "crazing", "ice crackle", "ge glaze", "craquelure"]),
  ("flambe", ["flambe", "transmutation", "jun glaze", "copper splash"]),
  ("sancai", ["sancai", "three color", "tang sancai", "tricolor"]),
  ("underglaze", ["underglaze", "underglaze red", "underglaze copper", "underglaze painting"]),
  ("overglaze", ["overglaze", "enamel", "enameled", "overglaze enamel"]),
  ("transfer", ["transfer", "transfer printed", "transfer print", "printed"]),
  ("tin_glaze", ["tin glaze", "tin-glazed", "tin glazed", "tin-glaze", "maiolica", "majolica",
    "faience", "faïence", "émail stannifère", "tinglazuur", "plateel",
    "fayence", "zinnglasur", "galleyware", "galliware", "delftware"])]

/-- `KeywordDictionary.production_keywords`. -/
def productionKeywords : List (String × List String) := [
  ("jingdezhen", ["jingdezhen", "jiangxi", "imperial kiln", "porcelain capital", "ching-te-chen"]),
  ("longquan", ["longquan", "zhejiang", "longquan kiln"]),
  ("dehua", ["dehua", "fujian", "blanc de chine", "white porcelain", "te-hua"]),
  ("yixing", ["yixing", "jiangsu", "purple clay", "zisha"]),
  ("jun", ["jun", "junzhou", "henan", "jun kiln", "chun"]),
  ("ding", ["ding", "dingzhou", "hebei", "ding kiln"]),
  ("cizhou", ["cizhou", "hebei", "cizhou kiln", "tz\x27u-chou"]),
  ("yaozhou", ["yaozhou", "shaanxi", "yaozhou kiln"]),
  ("china", ["china", "chinese", "middle kingdom", "zhongguo", "chine", "cina", "kina"]),
  ("delft", ["delft", "delftware", "delfts", "delftse", "hollants porceleyn", "dutch delft",
    "de porceleyne fles", "de grieksche a", "de witte ster", "royal delft",
    "de delftse pauw", "delft pottery", "delfts blauw", "delft blue",
    "tin glaze", "tin-glaze", "tin glazed", "tin-glazed",
    "faience", "faïence", "plateel",
    "galleyware", "galliware",
    "maiolica", "majolica",
    "dutch blue and white", "dutch blue white",
    "tin glazuur", "tinglazuur"]),
  ("amsterdam", ["amsterdam", "amsterdamse"]),
  ("rotterdam", ["rotterdam", "rotterdamse"]),
  ("haarlem", ["haarlem", "haarlemse"]),
  ("makkum", ["makkum", "tichelaar", "friesland"]),
  ("netherlands", ["netherlands", "dutch", "holland", "nederlandse", "hollandse", "nederland"]),
  ("belgium", ["belgium", "belgian", "belgique", "belgie", "belgisch"]),
  ("brussels", ["brussels", "bruxelles", "brussel"]),
  ("antwerp", ["antwerp", "antwerpen", "anvers"]),
  ("tournai", ["tournai", "doornik"]),
  ("ghent", ["ghent", "gent", "gand"]),
  ("meissen", ["meissen", "dresden", "saxony"]),
  ("sevres", ["sevres", "vincennes"]),
  ("worcester", ["worcester", "dr wall"]),
  ("staffordshire", ["staffordshire", "stoke on trent"]),
  ("export", ["export", "canton", "guangzhou", "trade port", "chinese export", "export porcelain"])]

/-- `KeywordDictionary.period_keywords`. -/
def periodKeywords : List (String × List String) := [
  ("tang", ["tang", "tang dynasty", "618-907", "7th century", "8th century", "9th century"]),
  ("song", ["song", "northern song", "southern song", "song dynasty", "960-1279",
    "10th century", "11th century", "12th century", "13th century"]),
  ("yuan", ["yuan", "mongol", "yuan dynasty", "1279-1368", "13th century", "14th century"]),
  ("ming", ["ming", "hongwu", "yongle", "xuande", "chenghua", "zhengde",
    "jiajing", "wanli", "tianqi", "chongzhen", "ming dynasty", "1368-1644",
    "14th century", "15th century", "16th century", "17th century"]),
  ("qing", ["qing", "shunzhi", "kangxi", "yongzheng", "qianlong", "jiaqing",
    "daoguang", "xianfeng", "tongzhi", "guangxu", "xuantong", "qing dynasty",
    "1644-1911", "17th century", "18th century", "19th century", "20th century"]),
  ("republic", ["republic", "minguo", "republic of china", "1912-1949"]),
  ("modern", ["modern", "contemporary", "20th century", "21st century", "1900s", "2000s"]),
  ("delft_golden_age", ["1640-1740", "dutch golden age", "17th century delft", "18th century delft"]),
  ("delft_revival", ["1870-1920", "delft revival", "new delft", "art nouveau delft"])]

/-- `KeywordDictionary.place_normalization`. -/
def placeNormalization : List (String × List String) := [
  ("china", ["china", "chine", "cina", "kina", "kitajska", "txina", "kína", "ķīna", "kiina", "hiina",
    "čína", "síne", "xina", "kinijos", "chinese", "chińska", "ljudska republika kitajska",
    "txinako herri errepublika", "repubblika tal-poplu taċ-ċina", "λαϊκή δημοκρατία της κίνας",
    "daon-phoblacht na síne", "república popular de la xina", "kinijos liaudies respublika",
    "中国", "zhongguo", "middle kingdom", "китай"]),
  ("vienna", ["vienna", "wien", "viena", "viin", "viedeň", "виена", "bécs", "vienne"]),
  ("netherlands", ["netherlands", "nederland", "holland", "pays-bas", "niederlande", "olanda",
    "países bajos", "países baixos", "paesi bassi", "holandia", "hollanda"]),
  ("belgium", ["belgium", "belgique", "belgië", "belgien", "bélgica", "belgio", "belgia"]),
  ("brussels", ["brussels", "bruxelles", "brussel", "an bhruiséil", "brisele", "briseles",
    "briuselio", "briuselis", "bruksela", "brusel", "brusela", "brüssel"]),
  ("united_kingdom", ["united kingdom", "uk", "britain", "great britain", "england",
    "an ríocht aontaithe", "apvienotā karaliste", "egyesült királyság",
    "erresuma batua", "regatul unit"]),
  ("japan", ["japan", "nippon", "an tseapáin", "日本"])]

/-- Museum/institution markers filtered out by `normalize_place`. -/
def museumKeywords : List String :=
  ["museum", "gallery", "collection", "hallwyl", "herstellung", "manufacture"]

/-- `KeywordDictionary.normalize_place`.  Result `none` is Python `None`.
A falsy input (the empty string) is returned unchanged (`some ""`), as in the
source; a matching table entry returns its standard name; otherwise the
original (untrimmed, case-preserved) input is returned unless it is longer
than 50 characters. -/
def normalizePlace (place : String) : Option String :=
  if place = "" then some place
  else
    let placeLower := pyStrip (pyLower place)
    if museumKeywords.any (fun k => containsStr k placeLower) then none
    else
      match placeNormalization.find? (fun e => e.2.any (fun v => containsStr v placeLower)) with
      | some e => some e.1
      | none =>
        match productionKeywords.find? (fun e => e.2.any (fun k => containsStr (pyLower k) placeLower)) with
        | some e => some e.1
        | none =>
          if place.length > 50 then none
          else some place

/-- `KeywordDictionary.get_dynasty_from_year`: an `if/elif` chain with
inclusive bounds, so a year on a shared boundary belongs to the
first-declared range. -/
def getDynastyFromYear (year : Int) : String :=
  if 618 ≤ year ∧ year ≤ 907 then "Tang"
  else if 960 ≤ year ∧ year ≤ 1279 then "Song"
  else if 1279 ≤ year ∧ year ≤ 1368 then "Yuan"
  else if 1368 ≤ year ∧ year ≤ 1644 then "Ming"
  else if 1644 ≤ year ∧ year ≤ 1911 then "Qing"
  else if 1912 ≤ year ∧ year ≤ 1949 then "Republic"
  else if year ≥ 1950 then "Modern"
  else "Unknown"

/-- `KeywordDictionary.get_century_from_year` (Python `//` is floor division). -/
def getCenturyFromYear (year : Int) : String :=
  let century := Int.fdiv (year - 1) 100 + 1
  if century = 1 then "1st century"
  else if century = 2 then "2nd century"
  else if century = 3 then "3rd century"
  else toString century ++ "th century"

/-! ## Regex machinery for the concrete patterns in `data_mapper.py` -/

/-- `\b` between two neighbouring characters (`none` at either end of the
string): exactly one side is a word character. -/
def wordBoundary (left right : Option Char) : Bool :=
  (match left with | some c => isWordChar c | none => false) !=
  (match right with | some c => isWordChar c | none => false)

def lastOf (l : List Char) : Option Char := l.reverse.head?

/-- One attempt of `re.search(r'\b' + re.escape(kw) + r'\b', ...)` at the
current position; `prev` is the character just before the position. -/
def wordMatchHere (kw : List Char) (prev : Option Char) (s : List Char) : Bool :=
  match kw with
  | [] => false
  | k0 :: _ =>
    startsWithL kw s &&
    wordBoundary prev (some k0) &&
    wordBoundary (lastOf kw) (s.drop kw.length).head?

def searchWordAux (kw : List Char) : Option Char → List Char → Bool
  | prev, [] => wordMatchHere kw prev []
  | prev, c :: rest => wordMatchHere kw prev (c :: rest) || searchWordAux kw (some c) rest

/-- `re.search(r'\b' + re.escape(kw) + r'\b', s)` as a Boolean, for the
(already lower-cased) subject `s`. -/
def searchWord (kw : String) (s : List Char) : Bool := searchWordAux kw.data none s

def digitVal (c : Char) : Int := (c.toNat : Int) - 48

/-- Match of `\b(1[0-9]{3}|20[0-2][0-9])\b` at the current position, returning
the year, the rest of the string and the last consumed character. -/
def yearMatchHere (prev : Option Char) (s : List Char) : Option (Int × List Char × Char) :=
  match s with
  | d1 :: d2 :: d3 :: d4 :: rest =>
    if wordBoundary prev (some d1) &&
       ((d1 == '1' && d2.isDigit && d3.isDigit && d4.isDigit) ||
        (d1 == '2' && d2 == '0' && (d3 == '0' || d3 == '1' || d3 == '2') && d4.isDigit)) &&
       wordBoundary (some d4) rest.head?
    then some (1000 * digitVal d1 + 100 * digitVal d2 + 10 * digitVal d3 + digitVal d4, rest, d4)
    else none
  | _ => none

/-- The scan of `re.findall(r'\b(1[0-9]{3}|20[0-2][0-9])\b', s)`: left-to-right,
non-overlapping.  The fuel argument only bounds the recursion; every step
consumes at least one character, so `length + 1` fuel is never exhausted. -/
def findYearsF : Nat → Option Char → List Char → List Int
  | 0, _, _ => []
  | _ + 1, _, [] => []
  | fuel + 1, prev, c :: rest =>
    match yearMatchHere prev (c :: rest) with
    | some (y, rem, lastc) => y :: findYearsF fuel (some lastc) rem
    | none => findYearsF fuel (some c) rest

def findYears (s : List Char) : List Int := findYearsF (s.length + 1) none s

/-- Case-insensitive literal match (pattern stored lower-case, subject char
ASCII-lowered), returning the rest. -/
def litHere : List Char → List Char → Option (List Char)
  | [], s => some s
  | _ :: _, [] => none
  | p :: ps, c :: cs => if lowerChar c == p then litHere ps cs else none

/-- Exact literal match, for patterns applied to already lower-cased text
without `re.IGNORECASE`. -/
def litExact : List Char → List Char → Option (List Char)
  | [], s => some s
  | _ :: _, [] => none
  | p :: ps, c :: cs => if c == p then litExact ps cs else none

/-- Tokens of the century-pattern tails (everything after the `(\d{1,2})`
group): case-insensitive literals, one-character classes, alternations of
literals, and `\s+`. -/
inductive CTok where
  | lit (s : List Char)
  | cls (cs : List Char)
  | alt (ss : List (List Char))
  | ws

def altHere : List (List Char) → List Char → Option (List Char × Char)
  | [], _ => none
  | o :: os, s =>
    match litHere o s with
    | some rem => some (rem, (lastOf o).getD ' ')
    | none => altHere os s

/-- Deterministic tail matcher for the century patterns (their alternations
have pairwise distinct first characters and `\s+` is always followed by a
non-whitespace literal, so no backtracking is needed beyond the `\d{1,2}`
group handled by the caller).  Returns the rest and the last consumed
character, used for the trailing `\b`. -/
def matchCTail : List CTok → List Char → Char → Option (List Char × Char)
  | [], s, lastc => some (s, lastc)
  | .lit l :: toks, s, lastc =>
    match litHere l s with
    | some rem => matchCTail toks rem ((lastOf l).getD lastc)
    | none => none
  | .cls cs :: toks, s, _ =>
    match s with
    | c :: rest => if cs.contains (lowerChar c) then matchCTail toks rest (lowerChar c) else none
    | [] => none
  | .alt ss :: toks, s, _ =>
    match altHere ss s with
    | some (rem, lc) => matchCTail toks rem lc
    | none => none
  | .ws :: toks, s, _ =>
    let run := s.takeWhile Char.isWhitespace
    if run.isEmpty then none else matchCTail toks (s.drop run.length) ' '

def centAttempt (tail : List CTok) (n : Int) (lastDigit : Char) (s : List Char) :
    Option (Int × List Char × Char) :=
  match matchCTail tail s lastDigit with
  | some (rem, lc) => if wordBoundary (some lc) rem.head? then some (n, rem, lc) else none
  | none => none

/-- Match of `\b(\d{1,2})<tail>\b` at the current position: the greedy
`\d{1,2}` tries two digits, backtracking to one when the rest fails. -/
def centMatchHere (tail : List CTok) (prev : Option Char) (s : List Char) :
    Option (Int × List Char × Char) :=
  match s with
  | [] => none
  | d1 :: rest1 =>
    if wordBoundary prev (some d1) && d1.isDigit then
      match rest1 with
      | d2 :: rest2 =>
        if d2.isDigit then
          match centAttempt tail (10 * digitVal d1 + digitVal d2) d2 rest2 with
          | some r => some r
          | none => centAttempt tail (digitVal d1) d1 rest1
        else centAttempt tail (digitVal d1) d1 rest1
      | [] => centAttempt tail (digitVal d1) d1 []
    else none

def centScanF : Nat → List CTok → Option Char → List Char → List Int
  | 0, _, _, _ => []
  | _ + 1, _, _, [] => []
  | fuel + 1, tail, prev, c :: rest =>
    match centMatchHere tail prev (c :: rest) with
    | some (n, rem, lc) => n :: centScanF fuel tail (some lc) rem
    | none => centScanF fuel tail (some c) rest

/-- `re.findall` of one century pattern, returning the captured numbers. -/
def centuryFindAll (tail : List CTok) (s : List Char) : List Int :=
  centScanF (s.length + 1) tail none s

/-- The eight century-pattern tails of `extract_period_info`, in source order
(English, French, German, Portuguese, Russian, Finnish, Latvian, Lithuanian). -/
def centuryTails : List (List CTok) := [
  [.alt ["st".data, "nd".data, "rd".data, "th".data], .ws, .lit "century".data],
  [.cls ['è', 'e'], .lit "me".data, .ws, .lit "siècle".data],
  [.lit ".".data, .ws, .lit "jahrhundert".data],
  [.cls ['º', '°'], .ws, .lit "século".data],
  [.ws, .lit "век".data],
  [.lit "-luku".data],
  [.lit ".".data, .ws, .lit "gadsimts".data],
  [.ws, .lit "amžius".data]]

/-- Tokens preceding the capture group in the decoration/inscription patterns
(applied to already lower-cased text, so literals match exactly). -/
inductive PreTok where
  | lit (s : List Char)
  | ws1
  | ws0
  | alt (ss : List (List Char))
  | opt (ss : List (List Char))

/-- Candidate rests after one token, in the regex engine's preference order
(greedy for `\s+`/`\s*`, declared order then skip for `(?:...)?`). -/
def preCandidates : PreTok → List Char → List (List Char)
  | .lit l, s => (litExact l s).toList
  | .ws1, s =>
    let n := (s.takeWhile Char.isWhitespace).length
    (List.range n).map (fun k => s.drop (n - k))
  | .ws0, s =>
    let n := (s.takeWhile Char.isWhitespace).length
    (List.range (n + 1)).map (fun k => s.drop (n - k))
  | .alt ss, s => ss.filterMap (fun o => litExact o s)
  | .opt ss, s => ss.filterMap (fun o => litExact o s) ++ [s]

/-- All ways to match the prefix tokens, in backtracking preference order. -/
def preMatches : List PreTok → List Char → List (List Char)
  | [], s => [s]
  | t :: ts, s => (preCandidates t s).flatMap (fun s' => preMatches ts s')

/-- Lazy `(<cls>+?)` followed by one of the terminator literals: candidates in
preference order (shortest capture first, terminators in declared order). -/
def grpMatchesF (cls : Char → Bool) (terms : List (List Char)) (acc : List Char) :
    List Char → List (String × List Char)
  | [] => if acc.isEmpty then [] else terms.filterMap (fun t => (litExact t []).map (fun rem => (⟨acc⟩, rem)))
  | c :: rest =>
    (if acc.isEmpty then []
     else terms.filterMap (fun t => (litExact t (c :: rest)).map (fun rem => (⟨acc⟩, rem)))) ++
    (if cls c then grpMatchesF cls terms (acc ++ [c]) rest else [])

/-- A capture pattern `<pre>(<cls>+?)(?:t1|t2|...)` as used by
`extract_decorations` and `extract_inscriptions`. -/
structure GPat where
  pre : List PreTok
  cls : Char → Bool
  terms : List (List Char)

def gpatMatchHere (p : GPat) (s : List Char) : Option (String × List Char) :=
  ((preMatches p.pre s).flatMap (fun s' => grpMatchesF p.cls p.terms [] s')).head?

def gpatScanF : Nat → GPat → List Char → List String
  | 0, _, _ => []
  | _ + 1, _, [] => []
  | fuel + 1, p, c :: rest =>
    match gpatMatchHere p (c :: rest) with
    | some (g, rem) => g :: gpatScanF fuel p rem
    | none => gpatScanF fuel p rest

/-- `re.findall` of a capture pattern, returning the captured groups. -/
def gpatFindAll (p : GPat) (s : List Char) : List String :=
  gpatScanF (s.length + 1) p s

/-- The character class `[\w\s,]`. -/
def clsWSC (c : Char) : Bool := isWordChar c || c.isWhitespace || c = ','

/-- The character class `[\w\s]`. -/
def clsWS (c : Char) : Bool := isWordChar c || c.isWhitespace

/-- `re.search` of `w1\s+w2\s+...\s+(?:f1|f2|...)` at the current position.
`\s+` is consumed greedily; the following token always starts with a
non-whitespace character, so no backtracking is needed. -/
def seqMatchHere : List (List Char) → List (List Char) → List Char → Bool
  | [], finals, s => finals.any (fun o => (litExact o s).isSome)
  | w :: ws, finals, s =>
    match litExact w s with
    | some rem =>
      let run := rem.takeWhile Char.isWhitespace
      !run.isEmpty && seqMatchHere ws finals (rem.drop run.length)
    | none => false

def searchSeqAux (pre finals : List (List Char)) : List Char → Bool
  | [] => seqMatchHere pre finals []
  | c :: rest => seqMatchHere pre finals (c :: rest) || searchSeqAux pre finals rest

/-- Boolean `re.search` for the word-sequence patterns (Delft/Belgian). -/
def searchSeq (pre finals : List String) (s : List Char) : Bool :=
  searchSeqAux (pre.map String.data) (finals.map String.data) s

/-! ## The attribute extractors (`DataMapper`) -/

/-- `DataMapper.extract_colored_drawing`: one entry per colour key whose
keyword list has a word-boundary hit, deduplicated. -/
def extractColoredDrawing (text : String) : List String :=
  if text = "" then []
  else
    let tl := (pyLower text).data
    dedupFirst ((colorKeywords.filter (fun e => e.2.any (fun k => searchWord k tl))).map (·.1))

/-- Case-insensitive first-occurrence deduplication (`seen.add(dec.lower())`
with membership tested on the lower-cased entry). -/
def dedupCIAux (seen : List String) : List String → List String
  | [] => []
  | x :: xs =>
    if pyLower x ∈ seen then dedupCIAux seen xs
    else x :: dedupCIAux (pyLower x :: seen) xs

/-- The six decoration capture patterns, with their prefixes. -/
def decorationPatterns : List (GPat × String) := [
  (⟨[.lit "decorated with ".data], clsWSC, [".".data, ",".data, ";".data, "and".data]⟩, "decorated"),
  (⟨[.lit "depicting ".data], clsWSC, [".".data, ",".data, ";".data, "and".data]⟩, "depicting"),
  (⟨[.lit "painted with ".data], clsWSC, [".".data, ",".data, ";".data, "and".data]⟩, "painted"),
  (⟨[.lit "design of ".data], clsWSC, [".".data, ",".data, ";".data, "and".data]⟩, "design"),
  (⟨[.lit "motif of ".data], clsWSC, [".".data, ",".data, ";".data, "and".data]⟩, "motif"),
  (⟨[.lit "pattern of ".data], clsWSC, [".".data, ",".data, ";".data, "and".data]⟩, "pattern")]

/-- `DataMapper.extract_decorations`. -/
def extractDecorations (text : String) : List String :=
  if text = "" then []
  else
    let tl := (pyLower text).data
    let themeDecs := decorationThemes.flatMap (fun e =>
      ((e.2.filter (fun k => searchWord k tl)).take 3).map (fun k => e.1 ++ ":" ++ k))
    let colorDecs := (extractColoredDrawing text).map (fun c => "color:" ++ c)
    let patDecs := decorationPatterns.flatMap (fun pp =>
      ((gpatFindAll pp.1 tl).take 2).filterMap (fun m =>
        if m.length < 50 then some (pp.2 ++ ":" ++ pyStrip m) else none))
    (dedupCIAux [] (themeDecs ++ colorDecs ++ patDecs)).take 15

/-- `DataMapper.extract_shape`: every matching keyword appends its shape type;
details are matching keywords different from their type. -/
def extractShape (text : String) : List String :=
  if text = "" then []
  else
    let tl := (pyLower text).data
    let found := shapeKeywords.flatMap (fun e =>
      (e.2.filter (fun k => searchWord k tl)).map (fun _ => e.1))
    let details := shapeKeywords.flatMap (fun e =>
      (e.2.filter (fun k => searchWord k tl)).filter (fun k => k ≠ e.1))
    let result := dedupFirst found
    (result ++ (dedupFirst details).filter (fun d => d ∉ result)).take 5

/-- `DataMapper.extract_function`. -/
def extractFunction (text : String) : List String :=
  if text = "" then []
  else
    let tl := (pyLower text).data
    dedupFirst ((functionKeywords.filter (fun e => e.2.any (fun k => searchWord k tl))).map (·.1))

/-- `DataMapper.extract_material`, including the ceramic/porcelain default
inference by substring sniffing. -/
def extractMaterial (text : String) : List String :=
  if text = "" then []
  else
    let tl := (pyLower text).data
    let found := materialKeywords.flatMap (fun e =>
      (e.2.filter (fun k => searchWord k tl)).map (fun _ => e.1))
    let found :=
      if found.isEmpty then
        if ["ceramic", "pottery", "clay"].any (fun w => containsSub w.data tl) then ["ceramic"]
        else if ["porcelain", "china"].any (fun w => containsSub w.data tl) then ["porcelain"]
        else []
      else found
    dedupFirst found

/-- `DataMapper.extract_glaze`: underscores in type names become spaces; a
matching keyword distinct from both forms is emitted as well. -/
def extractGlaze (text : String) : List String :=
  if text = "" then []
  else
    let tl := (pyLower text).data
    let found := glazeKeywords.flatMap (fun e =>
      (e.2.filter (fun k => searchWord k tl)).flatMap (fun k =>
        let normalized := replaceChar '_' ' ' e.1
        normalized :: (if k ≠ e.1 ∧ k ≠ normalized then [k] else [])))
    (dedupFirst found).take 5

/-- The plain inscription vocabulary of `extract_inscriptions`. -/
def inscriptionKeywords : List String := [
  "mark", "marked", "inscription", "inscribed", "character",
  "seal", "signature", "signed", "reign mark", "nianzhi",
  "nianzhao", "tang", "zhi", "zao", "six character",
  "four character", "seal mark", "reign title", "base mark"]

/-- The five inscription capture patterns, with their prefixes. -/
def inscriptionPatterns : List (GPat × String) := [
  (⟨[.lit "mark".data, .opt ["ed".data], .ws1, .alt ["of".data, "with".data, "reading".data], .ws1],
    clsWS, [".".data, ",".data, ";".data]⟩, "mark"),
  (⟨[.lit "inscription".data, .ws1, .alt ["of".data, "reading".data], .ws1],
    clsWS, [".".data, ",".data, ";".data]⟩, "inscription"),
  (⟨[.alt ["six".data, "four".data, "two".data], .ws1, .lit "character".data, .ws1,
     .lit "mark".data, .ws1, .opt ["of".data, "reading".data], .ws0],
    clsWS, [".".data, ",".data, ";".data]⟩, "character mark"),
  (⟨[.lit "reign".data, .ws1, .lit "mark".data, .ws1, .lit "of".data, .ws1],
    clsWS, [".".data, ",".data, ";".data]⟩, "reign mark"),
  (⟨[.lit "signed".data, .ws1], clsWS, [".".data, ",".data, ";".data]⟩, "signature")]

/-- `DataMapper.extract_inscriptions`. -/
def extractInscriptions (text : String) : List String :=
  if text = "" then []
  else
    let tl := (pyLower text).data
    let base := (inscriptionKeywords.filter (fun k => containsSub k.data tl)).take 3
    let patIns := inscriptionPatterns.flatMap (fun pp =>
      ((gpatFindAll pp.1 tl).take 2).filterMap (fun m =>
        if m.length < 30 then some (pp.2 ++ ":" ++ pyStrip m) else none))
    let periodMarks := (periodKeywords.filter (fun e =>
      e.2.any (fun k => containsSub k.data tl && containsSub "mark".data tl))).map
        (fun e => "period mark:" ++ e.1)
    (dedupFirst (base ++ patIns ++ periodMarks)).take 5

/-! ## `extract_production_place` -/

/-- Model of `json.loads` restricted to flat objects with string, integer,
boolean or null values (no nesting, floats or escape sequences); any other
document counts as a parse failure, which the caller's bare
`except: pass` turns into keeping the original string. -/
def natFromDigits (ds : List Char) : Int := ds.foldl (fun acc c => acc * 10 + digitVal c) 0

def parseJString : List Char → Option (String × List Char)
  | '"' :: rest =>
    let content := rest.takeWhile (fun c => c ≠ '"')
    match rest.drop content.length with
    | '"' :: rem => some (⟨content⟩, rem)
    | _ => none
  | _ => none

def parseJScalar (s : List Char) : Option (JVal × List Char) :=
  match parseJString s with
  | some (t, rem) => some (.str t, rem)
  | none =>
    match s with
    | '-' :: c :: rest =>
      if c.isDigit then
        let ds := (c :: rest).takeWhile Char.isDigit
        some (.int (-(natFromDigits ds)), (c :: rest).drop ds.length)
      else none
    | c :: rest =>
      if c.isDigit then
        let ds := (c :: rest).takeWhile Char.isDigit
        some (.int (natFromDigits ds), (c :: rest).drop ds.length)
      else if startsWithL "true".data (c :: rest) then some (.bool true, (c :: rest).drop 4)
      else if startsWithL "false".data (c :: rest) then some (.bool false, (c :: rest).drop 5)
      else if startsWithL "null".data (c :: rest) then some (.null, (c :: rest).drop 4)
      else none
    | [] => none

def skipWsJ (s : List Char) : List Char := s.dropWhile Char.isWhitespace

def parseJPairs : Nat → List Char → Option (List (String × JVal) × List Char)
  | 0, _ => none
  | fuel + 1, s =>
    match parseJString (skipWsJ s) with
    | none => none
    | some (k, rem) =>
      match skipWsJ rem with
      | ':' :: rem2 =>
        match parseJScalar (skipWsJ rem2) with
        | none => none
        | some (v, rem3) =>
          match skipWsJ rem3 with
          | ',' :: rem4 =>
            match parseJPairs fuel rem4 with
            | some (kvs, rem5) => some ((k, v) :: kvs, rem5)
            | none => none
          | '\x7d' :: rem4 => some ([(k, v)], rem4)
          | _ => none
      | _ => none

/-- Python dict construction from the parsed key/value pairs: a repeated key
keeps its first position but takes its last value, exactly as the dict
returned by `json.loads` does. -/
def pyDictInsert (m : List (String × JVal)) (k : String) (v : JVal) :
    List (String × JVal) :=
  if m.any (fun p => p.1 = k) then m.map (fun p => if p.1 = k then (k, v) else p)
  else m ++ [(k, v)]

def pyDictOfPairs (l : List (String × JVal)) : List (String × JVal) :=
  l.foldl (fun acc p => pyDictInsert acc p.1 p.2) []

def jsonLoadsModel (s : String) : Option JVal :=
  match skipWsJ s.data with
  | c :: rest =>
    if c = '\x7b' then
      match skipWsJ rest with
      | c2 :: rest2 =>
        if c2 = '\x7d' then
          if (skipWsJ rest2).isEmpty then some (.dict []) else none
        else
          match parseJPairs (s.length + 1) (c2 :: rest2) with
          | some (kvs, rem) =>
            if (skipWsJ rem).isEmpty then some (.dict (pyDictOfPairs kvs)) else none
          | none => none
      | [] => none
    else none
  | [] => none

/-- The `json.loads` handling of flattened place strings that look like
`{...'def'...}`: `some v` is the replacement value when the parsed document
is an object containing `"def"`; `none` keeps the original string (parse
failures land in the source's bare `except: pass`, and `'def' in x` /
`x['def']` on a parsed non-dict raises inside the same `try`).  The parsed
object has Python-dict key semantics, so a duplicated `"def"` key yields its
last value. -/
def jsonDefVal (p : String) : Option JVal :=
  if pyStartsWith p "\x7b" && containsStr "def" p then
    match jsonLoadsModel (replaceChar '\x27' '"' p) with
    | some (.dict kvs) => jlookup kvs "def"
    | _ => none
  else none

/-- `normalize_place` reached with an arbitrary value: a truthy non-string
raises `AttributeError` at `place.lower()`; a falsy non-string is returned
unchanged and is skipped by the caller's truthiness test (modelled `none`). -/
def normalizePlaceVal : JVal → Except String (Option String)
  | .str s => .ok (normalizePlace s)
  | v => if truthy v then .error "AttributeError" else .ok none

/-- The caller's guard `if normalized and len(normalized) < 50`. -/
def addNormalized (acc : List String) (n : Option String) : List String :=
  match n with
  | some s => if s ≠ "" ∧ s.length < 50 then insertS acc s else acc
  | none => acc

def placeFields : List String :=
  ["edmPlaceLabel", "placeLabel", "place", "origin", "provenance", "production"]

/-- The loop over the flattened strings of a list-valued place field. -/
def placeStrLoop (acc : List String) : List String → Except String (List String)
  | [] => .ok acc
  | p :: rest =>
    if p ≠ "" then do
      let pv : JVal := match jsonDefVal p with
        | some v => v
        | none => .str p
      let n ← normalizePlaceVal pv
      placeStrLoop (addNormalized acc n) rest
    else placeStrLoop acc rest

/-- Processing of one place field's value (list / non-empty string /
dict-with-`def`; anything else is skipped). -/
def processPlaceField (acc : List String) : Option JVal → Except String (List String)
  | none => .ok acc
  | some (.list xs) => placeStrLoop acc (flattenListAux xs)
  | some (.str s) =>
    if s ≠ "" then do
      let n ← normalizePlaceVal (.str s)
      .ok (addNormalized acc n)
    else .ok acc
  | some (.dict d) =>
    match jlookup d "def" with
    | some v => do
      let n ← normalizePlaceVal v
      .ok (addNormalized acc n)
    | none => .ok acc
  | some _ => .ok acc

/-- Python `field in item` followed by `item[field]`: total on dicts; on a
string or a list the membership test can succeed and the subscript then
raises `TypeError`; on other values `in` itself raises `TypeError`. -/
def fieldLookupE (item : JVal) (f : String) : Except String (Option JVal) :=
  match item with
  | .dict kvs => .ok (jlookup kvs f)
  | .str s => if containsStr f s then .error "TypeError" else .ok none
  | .list xs =>
    if xs.any (fun v => match v with | .str t => t == f | _ => false) then .error "TypeError"
    else .ok none
  | _ => .error "TypeError"

def fieldPlacesLoop (item : JVal) (acc : List String) : List String → Except String (List String)
  | [] => .ok acc
  | f :: fs => do
    let pv ← fieldLookupE item f
    let acc' ← processPlaceField acc pv
    fieldPlacesLoop item acc' fs

/-- The Delft text patterns.  The first pattern `delft(?:ware|se?)?` succeeds
exactly when the text contains `delft`, its suffix group being optional. -/
def delftHit (tl : List Char) : Bool :=
  containsSub "delft".data tl ||
  searchSeq ["dutch"] ["delft", "pottery", "ceramic"] tl ||
  searchSeq ["hollants"] ["porceleyn"] tl ||
  searchSeq ["de", "porceleyne"] ["fles"] tl ||
  searchSeq ["royal"] ["delft"] tl

/-- The Belgian pottery text patterns. -/
def belgianHit (tl : List Char) : Bool :=
  searchSeq ["belgian"] ["pottery", "ceramic", "porcelain"] tl ||
  searchSeq ["brussels"] ["pottery", "ceramic"] tl ||
  searchSeq ["antwerp"] ["pottery", "ceramic"] tl ||
  searchSeq ["tournai"] ["pottery", "ceramic"] tl

/-- Step 2: the production-keyword scan over the text (a place type is added
when any of its keywords has a word-boundary hit). -/
def prodLoopGo : List (String × List String) → List String → List Char → List String
  | [], acc, _ => acc
  | e :: es, acc, tl =>
    prodLoopGo es (if e.2.any (fun k => searchWord k tl) then insertS acc e.1 else acc) tl

def prodKeywordLoop (acc : List String) (tl : List Char) : List String :=
  prodLoopGo productionKeywords acc tl

def textPlaces (acc : List String) (text : String) : List String :=
  if text = "" then acc
  else
    let tl := (pyLower text).data
    let a1 := prodKeywordLoop acc tl
    let a2 := if delftHit tl then insertS a1 "delft" else a1
    if belgianHit tl then insertS a2 "belgium" else a2

def museumLocations : List String := ["vienna", "stockholm", "london", "paris", "new york"]

/-- Step 3: drop museum locations, fold `brussels` into `belgium`. -/
def cleanupPlaces (s : List String) : List String :=
  let s1 := s.filter (fun p => p ∉ museumLocations)
  if "brussels" ∈ s1 then eraseS (insertS s1 "belgium") "brussels" else s1

def priorityOrder : List String := [
  "jingdezhen", "delft", "longquan", "dehua", "yixing", "jun", "ding", "cizhou",
  "amsterdam", "rotterdam", "haarlem", "makkum",
  "antwerp", "tournai", "ghent",
  "china", "netherlands", "belgium",
  "meissen", "sevres", "worcester",
  "export"]

/-- Step 4: pick priority places in order, removing them from the set. -/
def priorityFold : List String → List String → List String × List String
  | [], s => ([], s)
  | p :: ps, s =>
    if p ∈ s then
      let r := priorityFold ps (eraseS s p)
      (p :: r.1, r.2)
    else priorityFold ps s

def prioritizePlaces (s : List String) : List String :=
  let r := priorityFold priorityOrder s
  (r.1 ++ sortStrings r.2).take 10

/-- `DataMapper.extract_production_place`. -/
def extractProductionPlace (item : JVal) (text : String) : Except String (List String) := do
  let s0 ← fieldPlacesLoop item [] placeFields
  let s1 := textPlaces s0 text
  pure (prioritizePlaces (cleanupPlaces s1))

/-! ## `extract_period_info` -/

/-- Selection of the period-bearing value:
`item.get('Metadata_for_Management', {}).get('Period', '')`, falling back to
`edmTimespanLabel` when falsy.  The second `.get` raises `AttributeError`
when the `Metadata_for_Management` value is not a dict, as does the first
when `item` itself is not. -/
def getPeriodData (item : JVal) : Except String JVal := do
  let m ← pyGetE item "Metadata_for_Management" (.dict [])
  let pd ← pyGetE m "Period" (.str "")
  if truthy pd then pure pd
  else
    match jget item "edmTimespanLabel" with
    | some v => pure v
    | none => pure pd

/-- `x['def'].strip()`: raises `AttributeError` on a non-string `def` value. -/
def stripJStr : JVal → Except String String
  | .str s => .ok (pyStrip s)
  | _ => .error "AttributeError"

/-- The list branch of the period-string normalization: non-blank strings not
starting with `http`/`https` are stripped and kept; dicts contribute their
stripped `def` value unless it starts with `http`; other elements vanish. -/
def periodStringsOfList : List JVal → Except String (List String)
  | [] => .ok []
  | .str s :: rest => do
    let r ← periodStringsOfList rest
    if pyStrip s ≠ "" ∧ ¬(pyStartsWith s "http" = true) ∧ ¬(pyStartsWith s "https" = true) then
      .ok (pyStrip s :: r)
    else .ok r
  | .dict d :: rest =>
    match jlookup d "def" with
    | some v => do
      let ps ← stripJStr v
      let r ← periodStringsOfList rest
      if pyStartsWith ps "http" then .ok r else .ok (ps :: r)
    | none => periodStringsOfList rest
  | _ :: rest => periodStringsOfList rest

/-- The full period-string normalization (list / string / dict-with-`def`). -/
def buildPeriodStrings : JVal → Except String (List String)
  | .list xs => periodStringsOfList xs
  | .str s =>
    if pyStrip s ≠ "" then
      if pyStartsWith s "http" then .ok [] else .ok [pyStrip s]
    else .ok []
  | .dict d =>
    match jlookup d "def" with
    | some v => do
      let ps ← stripJStr v
      if pyStartsWith ps "http" then .ok [] else .ok [ps]
    | none => .ok []
  | _ => .ok []

/-- The in-range 4-digit years of one period string. -/
def periodStrYears (ps : String) : List Int :=
  (findYears ps.data).filter (fun y => 1000 ≤ y ∧ y ≤ 2025)

/-- The century numbers (1..21) matched by the eight century patterns. -/
def centuryHits (ps : String) : List Int :=
  centuryTails.flatMap (fun tail =>
    (centuryFindAll tail ps.data).filter (fun c => 1 ≤ c ∧ c ≤ 21))

def intToStr (n : Int) : String := toString n

/-- The period labels contributed by one period string: an `Nth century`
label per century hit, then a capitalized dynasty per substring hit in the
period keyword table. -/
def periodStrPeriods (ps : String) : List String :=
  (centuryHits ps).map (fun c => intToStr c ++ "th century") ++
  (periodKeywords.filter (fun e => e.2.any (fun k => containsStr k (pyLower ps)))).map
    (fun e => pyCapitalize e.1)

/-- The summary object of `extract_period_info`. -/
structure PeriodSummary where
  periods : List String
  years : List Int
  dynastyMapping : List (Int × String)
  century : Option String
  dateRange : Option String

/-- Insertion-order-preserving dict update (`dynasty_info[year] = dynasty`). -/
def assocSet (m : List (Int × String)) (k : Int) (v : String) : List (Int × String) :=
  if m.any (fun p => p.1 = k) then m.map (fun p => if p.1 = k then (k, v) else p)
  else m ++ [(k, v)]

/-- Step 3: fold every year's dynasty into the period list and the mapping. -/
def dynastyFoldLoop : List Int → List String → List (Int × String) →
    List String × List (Int × String)
  | [], periods, info => (periods, info)
  | y :: ys, periods, info =>
    let d := getDynastyFromYear y
    if d ≠ "Unknown" then
      dynastyFoldLoop ys (if d ∈ periods then periods else periods ++ [d]) (assocSet info y d)
    else dynastyFoldLoop ys periods info

/-- Step 4: deduplicate years, keeping those in `[1000, 2025]`. -/
def uniqueYearsLoop (acc : List Int) : List Int → List Int
  | [] => acc
  | y :: ys =>
    if 1000 ≤ y ∧ y ≤ 2025 ∧ y ∉ acc then uniqueYearsLoop (acc ++ [y]) ys
    else uniqueYearsLoop acc ys

/-- Step 4: deduplicate periods.  As in the source, membership is tested on
the entry itself against a `seen` set of lower-cased entries, so an entry
that is not already lower-case can repeat. -/
def uniquePeriodsLoop (acc seen : List String) : List String → List String
  | [] => acc
  | p :: ps =>
    if p ≠ "" ∧ p ∉ seen ∧ p.length < 50 then
      uniquePeriodsLoop (acc ++ [p]) (seen ++ [pyLower p]) ps
    else uniquePeriodsLoop acc seen ps

/-- `DataMapper.extract_period_info`. -/
def extractPeriodInfo (item : JVal) :
    Except String (List String × List Int × PeriodSummary) := do
  let pd ← getPeriodData item
  let pstrs ← buildPeriodStrings pd
  let years0 := pstrs.flatMap (fun ps =>
    periodStrYears ps ++ (centuryHits ps).map (fun c => (c - 1) * 100 + 50))
  let periods0 := pstrs.flatMap periodStrPeriods
  let pr := dynastyFoldLoop years0 periods0 []
  let uniqueYears := uniqueYearsLoop [] years0
  let uniquePeriods := uniquePeriodsLoop [] [] pr.1
  let cent : Option String := match uniqueYears with
    | y :: _ => some (getCenturyFromYear y)
    | [] => none
  let dr : Option String := match uniqueYears with
    | [] => none
    | [y] => some (intToStr y)
    | y :: ys => some (intToStr (listMinInt y ys) ++ "-" ++ intToStr (listMaxInt y ys))
  pure (uniquePeriods, uniqueYears,
    ⟨uniquePeriods.take 5, (sortInts uniqueYears).take 10, pr.2, cent, dr⟩)

/-! ## The three metadata bundles and `process_item` -/

/-- The `extraction_quality` sub-dictionary. -/
structure ExtractionQuality where
  hasColor : Bool
  hasDecoration : Bool
  hasShape : Bool
  hasFunction : Bool
  hasMaterial : Bool
  hasGlaze : Bool
  hasPlace : Bool
  hasInscription : Bool

def ExtractionQuality.count (q : ExtractionQuality) : Nat :=
  (if q.hasColor then 1 else 0) + (if q.hasDecoration then 1 else 0) +
  (if q.hasShape then 1 else 0) + (if q.hasFunction then 1 else 0) +
  (if q.hasMaterial then 1 else 0) + (if q.hasGlaze then 1 else 0) +
  (if q.hasPlace then 1 else 0) + (if q.hasInscription then 1 else 0)

/-- The descriptive metadata bundle of `map_to_descriptive_metadata`. -/
structure DescMeta where
  Descriptions : List String
  ColoredDrawing : List String
  Decorations : List String
  Shape : List String
  ShapeDescription : List String
  Function : List String
  FunctionCategory : List String
  Paste : List String
  PasteMaterial : List String
  Glaze : List String
  ProductionPlace : List String
  ProductionPlaceLocation : List String
  Inscriptions : List String
  ldaTopics : Option (List JVal)
  extractionQuality : ExtractionQuality
  qualityScore : ℚ

/-- `DataMapper.map_to_descriptive_metadata` (`datetime`-free and pure except
for the two `extract_production_place` calls, which can raise). -/
def mapToDescriptiveMetadata (item : JVal) (text : String) (lda : Option (List JVal)) :
    Except String DescMeta := do
  let descriptions := match jget item "dcDescription" with
    | some v => flattenList v
    | none => []
  let pp1 ← extractProductionPlace item text
  let pp2 ← extractProductionPlace item text
  let q : ExtractionQuality :=
    ⟨!(extractColoredDrawing text).isEmpty, !(extractDecorations text).isEmpty,
     !(extractShape text).isEmpty, !(extractFunction text).isEmpty,
     !(extractMaterial text).isEmpty, !(extractGlaze text).isEmpty,
     !pp1.isEmpty, !(extractInscriptions text).isEmpty⟩
  pure ⟨descriptions.take 3, extractColoredDrawing text, extractDecorations text,
    extractShape text, [], extractFunction text, [],
    extractMaterial text, extractMaterial text, extractGlaze text,
    pp1, pp2, extractInscriptions text,
    (match lda with | some l => if !l.isEmpty then some l else none | none => none),
    q, (q.count : ℚ) / 8⟩

/-- The `PreservationRecords` sub-dictionary of the management bundle. -/
structure PresRecords where
  rights : JVal
  timestampCreated : JVal
  timestampUpdated : JVal
  qualityScore : JVal

/-- The management metadata bundle. -/
structure MgmtMeta where
  Title : List String
  UsedTitles : List String
  Identifier : JVal
  Period : List String
  Years : List Int
  PeriodSummaryData : PeriodSummary
  CompletenessLevel : JVal
  ProvidingInstitution : JVal
  ProvidingInstitutionCountry : JVal
  DateofStorage : JVal
  Preservation : PresRecords

/-- The `Used_Titles` deduplication (exact-match, order preserving). -/
def usedTitlesLoop (acc seen : List String) : List String → List String
  | [] => acc
  | t :: ts =>
    if t ≠ "" ∧ t ∉ seen then usedTitlesLoop (acc ++ [t]) (seen ++ [t]) ts
    else usedTitlesLoop acc seen ts

/-- `DataMapper.map_to_management_metadata`. -/
def mapToManagementMetadata (item : JVal) : Except String MgmtMeta := do
  let titleValue : List String :=
    match jget item "title" with
    | some (.list xs) => flattenListAux xs
    | some (.str s) => [s]
    | some _ => []
    | none =>
      match jget item "dcTitle" with
      | some (.list xs) => flattenListAux xs
      | some (.str s) => [s]
      | _ => []
  let pi ← extractPeriodInfo item
  let ident ← pyGetE item "id" (.str "")
  let completenessDefault ← pyGetE item "completeness" (.int 0)
  let completeness ← pyGetE item "europeanaCompleteness" completenessDefault
  let providing ← pyGetE item "dataProvider" (.str "")
  let country ← pyGetE item "country" (.str "")
  let tsCreated ← pyGetE item "timestamp_created" (.str "")
  let rights ← pyGetE item "rights" (.str "")
  let tsUpdated ← pyGetE item "timestamp_update" (.str "")
  let dq ← pyGetE item "description_quality" .null
  let qScore : JVal := match dq with
    | .dict d => (jlookup d "score").getD (.int 0)
    | _ => .int 0
  let allTitles :=
    (match jget item "dcTitle" with | some v => flattenList v | none => []) ++
    (match jget item "title" with | some v => flattenList v | none => [])
  pure ⟨titleValue, usedTitlesLoop [] [] allTitles, ident, pi.1, pi.2.1, pi.2.2,
    completeness, providing, country, tsCreated, ⟨rights, tsCreated, tsUpdated, qScore⟩⟩

/-- The extended metadata bundle. -/
structure ExtMeta where
  RelatedPeople : List String
  RelatedCollections : List String
  edmIsShownAt : JVal
  edmIsShownBy : JVal
  edmPreview : JVal
  DocumentationsAPI : JVal
  guid : JVal
  europeanaCollectionName : JVal
  provider : JVal
  itemType : JVal
  language : JVal

/-- `DataMapper.map_to_extended_metadata`. -/
def mapToExtendedMetadata (item : JVal) : Except String ExtMeta := do
  let shownAt ← pyGetE item "edmIsShownAt" (.str "")
  let shownBy ← pyGetE item "edmIsShownBy" (.str "")
  let preview ← pyGetE item "edmPreview" (.str "")
  let link ← pyGetE item "link" (.str "")
  let guid ← pyGetE item "guid" (.str "")
  let collName ← pyGetE item "europeanaCollectionName" (.str "")
  let provider ← pyGetE item "provider" (.str "")
  let ty ← pyGetE item "type" (.str "")
  let lang ← pyGetE item "language" (.list [])
  let people := match jget item "dcCreator" with
    | some v => flattenList v
    | none => []
  let colls := match jget item "europeanaCollectionName" with
    | some v => flattenList v
    | none => []
  pure ⟨people, colls, shownAt, shownBy, preview, link, guid, collName, provider, ty, lang⟩

/-- `ProcessingMetadata`: `processed_date` is `datetime.now().isoformat()`,
modelled by the explicit `now` argument; exactly one of
`preprocessingMetadata` (success) and `error` (degraded) is present. -/
structure ProcMeta where
  processedDate : String
  preprocessingMetadata : Option JVal
  errorMsg : Option String

/-- The per-item result of `process_item`: `none` bundles are the empty dicts
of the degraded result. -/
structure ProcessResult where
  id : JVal
  DescriptiveMetadata : Option DescMeta
  ManagementMetadata : Option MgmtMeta
  ExtendedMetadata : Option ExtMeta
  ProcessingMetadata : ProcMeta

/-- The `try` body of `process_item`, building the complete result. -/
def processItemCore (now : String) (item : JVal) (text : String)
    (lda : Option (List JVal)) : Except String ProcessResult := do
  let ident ← pyGetE item "id" (.str "")
  let d ← mapToDescriptiveMetadata item text lda
  let m ← mapToManagementMetadata item
  let e ← mapToExtendedMetadata item
  let pre ← pyGetE item "preprocessing_metadata" (.dict [])
  pure ⟨ident, some d, some m, some e, ⟨now, some pre, none⟩⟩

/-- `DataMapper.process_item`: the `except Exception` handler builds the
degraded result, itself calling `item.get('id', ...)` twice (once in the
diagnostic `print`, once in the result), which raises again when `item`
is not a dict. -/
def processItem (now : String) (item : JVal) (text : String)
    (lda : Option (List JVal)) : Except String ProcessResult :=
  match processItemCore now item text lda with
  | .ok r => .ok r
  | .error e => do
    let _ ← pyGetE item "id" (.str "unknown")
    let ident ← pyGetE item "id" (.str "")
    pure ⟨ident, none, none, none, ⟨now, none, some e⟩⟩

/-! ## Safety predicates: the inputs on which the extractors cannot raise -/

/-- A value reached by `normalize_place` is safe exactly when it is a string
or falsy. -/
def defValOk : Option JVal → Bool
  | some (.str _) => true
  | some v => !truthy v
  | none => true

/-- Safety of one flattened place string: if it looks like a `def` wrapper,
its parsed `def` value must be a string or falsy.  Strings in the wrapper
shape that the restricted `jsonLoadsModel` cannot parse are conservatively
rejected, since the real `json.loads` may still produce a dict there. -/
def strPlaceOk (p : String) : Bool :=
  if pyStartsWith p "\x7b" && containsStr "def" p then
    match jsonLoadsModel (replaceChar '\x27' '"' p) with
    | some (.dict kvs) => defValOk (jlookup kvs "def")
    | some _ => true
    | none => false
  else true

/-- Safety of one place field's value. -/
def placeFieldOk : Option JVal → Bool
  | none => true
  | some (.list xs) => (flattenListAux xs).all strPlaceOk
  | some (.dict d) => defValOk (jlookup d "def")
  | some _ => true

/-- Safety of all six place fields of a dict item. -/
def placesDefOk (kvs : List (String × JVal)) : Bool :=
  placeFields.all (fun f => placeFieldOk (jlookup kvs f))

/-- Safety of one element of the period-bearing value: a dict's `def` value,
when present, must be a string (it is unconditionally `.strip()`-ed). -/
def periodElemOk : JVal → Bool
  | .dict d =>
    match jlookup d "def" with
    | some (.str _) => true
    | some _ => false
    | none => true
  | _ => true

def periodDataOk : JVal → Bool
  | .list xs => xs.all periodElemOk
  | .dict d => periodElemOk (.dict d)
  | _ => true

/-- Safety of the period extraction on a dict item: the
`Metadata_for_Management` value, when present, must be a dict, and the
selected period-bearing value must have string `def` values. -/
def mfmPeriodOk (kvs : List (String × JVal)) : Bool :=
  match jlookup kvs "Metadata_for_Management" with
  | some (.dict mkvs) =>
    if truthy ((jlookup mkvs "Period").getD (.str "")) then
      periodDataOk ((jlookup mkvs "Period").getD (.str ""))
    else
      match jlookup kvs "edmTimespanLabel" with
      | some v => periodDataOk v
      | none => true
  | some _ => false
  | none =>
    match jlookup kvs "edmTimespanLabel" with
    | some v => periodDataOk v
    | none => true

/-! ## Concrete inputs used to settle the claims -/

/-- An item whose period label repeats a capitalized dynasty and carries
eleven distinct years. -/
def c2Item : JVal := .dict [("edmTimespanLabel", .list [.str "Ming dynasty", .str "Ming dynasty",
  .str "1500 1501 1502 1503 1504 1505 1506 1507 1508 1509 1510"])]

/-- An item whose period field is the English string `18th century`. -/
def c4ItemEn : JVal := .dict [("edmTimespanLabel", .str "18th century")]

/-- An item whose period field is the bare French form `17e siècle`. -/
def c4ItemFr : JVal := .dict [("edmTimespanLabel", .str "17e siècle")]

/-- An item whose period field is the accented French form `17ème siècle`. -/
def c4ItemFrOk : JVal := .dict [("edmTimespanLabel", .str "17ème siècle")]

/-- A free text mentioning eleven places of higher priority than `china`,
plus `china` itself. -/
def c7Text : String :=
  "jingdezhen delft longquan dehua yixing jun ding cizhou amsterdam rotterdam haarlem china"

/-! ## Shared helper lemmas -/

theorem exists_ok_of_isOk {α : Type} {x : Except String α} (h : x.isOk = true) :
    ∃ v, x = .ok v := by
  cases x with
  | error e => simp [Except.isOk, Except.toBool] at h
  | ok v => exact ⟨v, rfl⟩

theorem except_bind_ok_inv {α β : Type} {x : Except String α} {f : α → Except String β} {b : β}
    (h : x >>= f = .ok b) : ∃ a, x = .ok a ∧ f a = .ok b := by
  cases x with
  | error e => exact Except.noConfusion h
  | ok a => exact ⟨a, rfl, h⟩

theorem bind_eq_ok {α β : Type} {x : Except String α} {a : α} (hx : x = .ok a)
    (f : α → Except String β) : (x >>= f) = f a := by
  rw [hx]
  rfl

theorem take_len_le {α : Type} (n : Nat) (l : List α) : (l.take n).length ≤ n := by
  rw [List.length_take]; exact Nat.min_le_left _ _

theorem mem_insertS_self (s : List String) (x : String) : x ∈ insertS s x := by
  unfold insertS; split
  · assumption
  · simp

theorem mem_insertS_of_mem {s : List String} {x : String} (y : String) (h : x ∈ s) :
    x ∈ insertS s y := by
  unfold insertS; split
  · exact h
  · exact List.mem_append_left _ h

theorem mem_of_mem_eraseS {s : List String} {x y : String} (h : x ∈ eraseS s y) : x ∈ s :=
  (List.mem_filter.mp h).1

theorem ne_of_mem_eraseS {s : List String} {x y : String} (h : x ∈ eraseS s y) : x ≠ y := by
  have := (List.mem_filter.mp h).2
  simpa using this

theorem mem_of_mem_insertSorted {x y : String} {l : List String}
    (h : x ∈ insertSorted y l) : x = y ∨ x ∈ l := by
  induction l with
  | nil => simpa [insertSorted] using h
  | cons z zs ih =>
    unfold insertSorted at h
    split at h
    · simpa using h
    · rcases List.mem_cons.mp h with h1 | h2
      · exact Or.inr (by simp [h1])
      · rcases ih h2 with h3 | h4
        · exact Or.inl h3
        · exact Or.inr (List.mem_cons_of_mem _ h4)

theorem mem_of_mem_sortStrings {x : String} {l : List String} (h : x ∈ sortStrings l) :
    x ∈ l := by
  induction l with
  | nil => simp [sortStrings] at h
  | cons z zs ih =>
    unfold sortStrings at h
    rcases mem_of_mem_insertSorted h with h1 | h2
    · simp [h1]
    · exact List.mem_cons_of_mem _ (ih h2)

theorem mem_fst_priorityFold {x : String} :
    ∀ (ps s : List String), x ∈ (priorityFold ps s).1 → x ∈ s := by
  intro ps
  induction ps with
  | nil => intro s h; simp [priorityFold] at h
  | cons p pt ih =>
    intro s h
    unfold priorityFold at h
    split at h
    · rcases List.mem_cons.mp h with h1 | h2
      · subst h1; assumption
      · exact mem_of_mem_eraseS (ih _ h2)
    · exact ih s h

theorem mem_snd_priorityFold {x : String} :
    ∀ (ps s : List String), x ∈ (priorityFold ps s).2 → x ∈ s := by
  intro ps
  induction ps with
  | nil => intro s h; simp only [priorityFold] at h; exact h
  | cons p pt ih =>
    intro s h
    unfold priorityFold at h
    split at h
    · exact mem_of_mem_eraseS (ih _ h)
    · exact ih s h

theorem mem_of_mem_prioritizePlaces {x : String} {s : List String}
    (h : x ∈ prioritizePlaces s) : x ∈ s := by
  unfold prioritizePlaces at h
  rcases List.mem_append.mp (List.mem_of_mem_take h) with h1 | h2
  · exact mem_fst_priorityFold _ _ h1
  · exact mem_snd_priorityFold _ _ (mem_of_mem_sortStrings h2)

theorem brussels_not_mem_cleanupPlaces (s : List String) :
    "brussels" ∉ cleanupPlaces s := by
  intro h
  simp only [cleanupPlaces] at h
  split at h
  · exact ne_of_mem_eraseS h rfl
  · rename_i hneg
    exact hneg h

/-! ## Claim C1: dynasty boundary mapping -/

/-- C1 counterexample: the boundary years 1279, 1368 and 1644 are owned by the
first-declared range of the `if/elif` chain, not the last-declared one, so
they map to Song, Yuan and Ming instead of the claimed Yuan, Ming and Qing. -/
theorem c1_counterexample :
    getDynastyFromYear 1279 = "Song" ∧ getDynastyFromYear 1279 ≠ "Yuan" ∧
    getDynastyFromYear 1368 = "Yuan" ∧ getDynastyFromYear 1368 ≠ "Ming" ∧
    getDynastyFromYear 1644 = "Ming" ∧ getDynastyFromYear 1644 ≠ "Qing" := by
  refine ⟨rfl, ?_, rfl, ?_, rfl, ?_⟩ <;> decide

/-- C1 (amended): `get_dynasty_from_year` maps 618 and 907 to Tang, 960 and
1279 to Song, 1368 to Yuan, 1644 to Ming, 1911 to Qing, 1912 and 1949 to
Republic and 1950 to Modern — a boundary year shared by two adjacent
inclusive ranges is owned by the first-declared range — and any year covered
by no declared range (below 618, or strictly between 907 and 960) maps to
`Unknown`. -/
theorem c1_theorem :
    getDynastyFromYear 618 = "Tang" ∧ getDynastyFromYear 907 = "Tang" ∧
    getDynastyFromYear 960 = "Song" ∧ getDynastyFromYear 1279 = "Song" ∧
    getDynastyFromYear 1368 = "Yuan" ∧ getDynastyFromYear 1644 = "Ming" ∧
    getDynastyFromYear 1911 = "Qing" ∧ getDynastyFromYear 1912 = "Republic" ∧
    getDynastyFromYear 1949 = "Republic" ∧ getDynastyFromYear 1950 = "Modern" ∧
    ∀ y : Int, (y < 618 ∨ (907 < y ∧ y < 960)) → getDynastyFromYear y = "Unknown" := by
  refine ⟨rfl, rfl, rfl, rfl, rfl, rfl, rfl, rfl, rfl, rfl, ?_⟩
  intro y hy
  rcases hy with h | h <;>
    · unfold getDynastyFromYear
      repeat' split
      all_goals first
        | rfl
        | (exfalso; omega)

/-- C1 witness: the unranged year 500 maps to `Unknown`. -/
theorem c1_witness : getDynastyFromYear 500 = "Unknown" :=
  c1_theorem.2.2.2.2.2.2.2.2.2.2 500 (Or.inl (by decide))

/-! ## Claim C4: century parsing -/

/-- C4 counterexample: on the claimed French form `17e siècle` the extraction
yields no years at all (the French pattern requires `ème`/`eme` after the
digits), refuting the claimed year 1650. -/
theorem c4_counterexample :
    (extractPeriodInfo c4ItemFr).map (fun r => (r.1, r.2.1)) = .ok ([], []) := by rfl

/-- C4 (amended): an item whose period field is `18th century` yields 1750
among its years and `18th century` among its periods; the French century form
must carry the `ème`/`eme` suffix — `17ème siècle` yields 1650, while the
bare `17e siècle` matches nothing. -/
theorem c4_theorem :
    ((extractPeriodInfo c4ItemEn).map
      (fun r => (decide ((1750 : Int) ∈ r.2.1), decide ("18th century" ∈ r.1))) =
        .ok (true, true)) ∧
    ((extractPeriodInfo c4ItemFrOk).map (fun r => decide ((1650 : Int) ∈ r.2.1)) =
        .ok true) := by
  exact ⟨rfl, rfl⟩

/-! ## Claim C5: `normalize_place` fail-closed behaviour -/

/-- C5 counterexample: the empty input is returned unchanged (not null), and
an unmatched input is returned verbatim — `" Xyz "` stays `" Xyz "` rather
than becoming the trimmed lower-cased `"xyz"`. -/
theorem c5_counterexample :
    normalizePlace "" = some "" ∧
    normalizePlace " Xyz " = some " Xyz " ∧ normalizePlace " Xyz " ≠ some "xyz" := by
  refine ⟨rfl, rfl, ?_⟩; decide

/-- C5 (amended): `normalize_place` returns the empty string unchanged when
the input is empty; returns null when the lower-cased trimmed input contains
an institution/gallery/manufacture marker; and when neither normalization
table matches, returns null when the input exceeds 50 characters and
otherwise the original input verbatim (not trimmed or lower-cased — the
trimmed lower-cased form is used only for matching). -/
theorem c5_theorem (s : String) :
    (s = "" → normalizePlace s = some s) ∧
    (s ≠ "" → museumKeywords.any (fun k => containsStr k (pyStrip (pyLower s))) = true →
      normalizePlace s = none) ∧
    (s ≠ "" →
      museumKeywords.any (fun k => containsStr k (pyStrip (pyLower s))) = false →
      (placeNormalization.find?
        (fun e => e.2.any (fun v => containsStr v (pyStrip (pyLower s))))) = none →
      (productionKeywords.find?
        (fun e => e.2.any (fun k => containsStr (pyLower k) (pyStrip (pyLower s))))) = none →
      ((s.length > 50 → normalizePlace s = none) ∧
       (s.length ≤ 50 → normalizePlace s = some s))) := by
  refine ⟨?_, ?_, ?_⟩
  · intro h
    simp [normalizePlace, h]
  · intro h hm
    simp [normalizePlace, h, hm]
  · intro h hm h1 h2
    constructor <;> intro hl <;> simp [normalizePlace, h, hm, h1, h2, hl]

/-- C5 witness: a museum label is filtered to null; an unmatched short input
is returned verbatim; the empty string passes through. -/
theorem c5_witness :
    normalizePlace "" = some "" ∧
    normalizePlace "Vienna Museum Collection" = none ∧
    normalizePlace " Xyz " = some " Xyz " := by
  have hv := c5_theorem
  refine ⟨(hv "").1 rfl, ?_, ?_⟩
  · exact (hv "Vienna Museum Collection").2.1 (by decide) (by decide)
  · exact ((hv " Xyz ").2.2 (by decide) (by decide) (by decide) (by decide)).2 (by decide)

/-! ## Claims C6 and C7: place folding and priority ordering -/

theorem mem_prodLoopGo_of_mem {x : String} :
    ∀ (tbl : List (String × List String)) (acc : List String) (tl : List Char),
      x ∈ acc → x ∈ prodLoopGo tbl acc tl := by
  intro tbl
  induction tbl with
  | nil => intro acc tl h; exact h
  | cons e es ih =>
    intro acc tl h
    unfold prodLoopGo
    apply ih
    split
    · exact mem_insertS_of_mem _ h
    · exact h

theorem mem_prodLoopGo_hit {x : String} {kws : List String} :
    ∀ (tbl : List (String × List String)) (acc : List String) (tl : List Char),
      (x, kws) ∈ tbl → kws.any (fun k => searchWord k tl) = true →
      x ∈ prodLoopGo tbl acc tl := by
  intro tbl
  induction tbl with
  | nil => intro acc tl h _; simp at h
  | cons e es ih =>
    intro acc tl h hany
    rcases List.mem_cons.mp h with h1 | h2
    · unfold prodLoopGo
      apply mem_prodLoopGo_of_mem
      rw [← h1] at *
      simp only [hany, if_pos]
      exact mem_insertS_self _ _
    · unfold prodLoopGo
      exact ih _ _ h2 hany

theorem mem_cleanupPlaces_of_mem {x : String} {s : List String}
    (hmus : x ∉ museumLocations) (hbr : x ≠ "brussels") (h : x ∈ s) :
    x ∈ cleanupPlaces s := by
  simp only [cleanupPlaces]
  have h1 : x ∈ s.filter (fun p => p ∉ museumLocations) :=
    List.mem_filter.mpr ⟨h, by simpa using hmus⟩
  split
  · exact List.mem_filter.mpr ⟨mem_insertS_of_mem _ h1, by simpa using hbr⟩
  · exact h1

/-- Membership survives the Delft/Belgian conditional inserts. -/
theorem mem_textPlaces_aux {x : String} (b1 b2 : Bool) (a : List String) (d1 d2 : String)
    (h : x ∈ a) :
    x ∈ (if b2 then insertS (if b1 then insertS a d1 else a) d2
         else (if b1 then insertS a d1 else a)) := by
  split <;> split <;>
    first
      | exact mem_insertS_of_mem _ (mem_insertS_of_mem _ h)
      | exact mem_insertS_of_mem _ h
      | exact h

/-- If `jingdezhen` is in the final set, the prioritized list starts with it. -/
theorem prioritizePlaces_jingdezhen {s : List String} (h : "jingdezhen" ∈ s) :
    ∃ rest, prioritizePlaces s = "jingdezhen" :: rest := by
  unfold prioritizePlaces
  have hstep : priorityFold priorityOrder s =
      ("jingdezhen" :: (priorityFold priorityOrder.tail (eraseS s "jingdezhen")).1,
        (priorityFold priorityOrder.tail (eraseS s "jingdezhen")).2) := by
    show priorityFold ("jingdezhen" :: priorityOrder.tail) s = _
    unfold priorityFold
    rw [if_pos h]
    rfl
  rw [hstep]
  exact ⟨_, rfl⟩

/-- A successful `extract_production_place` run factors through the
cleanup/priority pipeline on the set collected from fields and text. -/
theorem extractProductionPlace_ok_shape {item : JVal} {text : String} {res : List String}
    (h : extractProductionPlace item text = Except.ok res) :
    ∃ s0, fieldPlacesLoop item [] placeFields = Except.ok s0 ∧
      res = prioritizePlaces (cleanupPlaces (textPlaces s0 text)) := by
  unfold extractProductionPlace at h
  cases hf : fieldPlacesLoop item [] placeFields with
  | error e =>
    rw [hf] at h
    exact Except.noConfusion h
  | ok s0 =>
    rw [hf] at h
    have h2 : (Except.ok (prioritizePlaces (cleanupPlaces (textPlaces s0 text))) :
        Except String (List String)) = Except.ok res := h
    exact ⟨s0, rfl, (Except.ok.inj h2).symm⟩

/-- C6 counterexample: `normalize_place("Bruxelles")` returns `"brussels"`,
not the claimed `"belgium"` (the fold to Belgium happens later, inside
`extract_production_place`). -/
theorem c6_counterexample :
    normalizePlace "Bruxelles" = some "brussels" ∧
    normalizePlace "Bruxelles" ≠ some "belgium" := by
  refine ⟨rfl, ?_⟩; decide

/-- C6 (amended): `normalize_place("Vienna Museum Collection")` is null;
`normalize_place("Bruxelles")` is `"brussels"`, and the Brussels-to-Belgium
fold happens inside `extract_production_place`, whose result therefore never
contains `"brussels"` for any item and text. -/
theorem c6_theorem :
    normalizePlace "Vienna Museum Collection" = none ∧
    normalizePlace "Bruxelles" = some "brussels" ∧
    ∀ (item : JVal) (text : String) (res : List String),
      extractProductionPlace item text = Except.ok res → "brussels" ∉ res := by
  refine ⟨rfl, rfl, ?_⟩
  intro item text res h hmem
  obtain ⟨s0, _, hres⟩ := extractProductionPlace_ok_shape h
  rw [hres] at hmem
  exact brussels_not_mem_cleanupPlaces _ (mem_of_mem_prioritizePlaces hmem)

/-- C6 witness: a Brussels-pottery text produces a result without
`"brussels"`. -/
theorem c6_witness :
    ∃ res, extractProductionPlace (JVal.dict []) "brussels pottery" = Except.ok res ∧
      "brussels" ∉ res := by
  obtain ⟨res, hres⟩ :=
    exists_ok_of_isOk (x := extractProductionPlace (JVal.dict []) "brussels pottery") (by rfl)
  exact ⟨res, hres, c6_theorem.2.2 _ _ res hres⟩

/-- C7 counterexample: with eleven higher-priority places present, the
10-item cap truncates `china` out of the result even though both
`jingdezhen` and `china` occur as whole words, so `china` appears at no
index at all. -/
theorem c7_counterexample :
    searchWord "jingdezhen" (pyLower c7Text).data = true ∧
    searchWord "china" (pyLower c7Text).data = true ∧
    (extractProductionPlace (JVal.dict []) c7Text).map
      (fun r => (decide ("jingdezhen" ∈ r), decide ("china" ∈ r))) = .ok (true, false) := by
  exact ⟨rfl, rfl, rfl⟩

/-- C7 (amended): whenever both `jingdezhen` and `china` occur as whole words
in the text, any successful `extract_production_place` result starts with
`jingdezhen`, and `china` — when it survives the 10-item cap — appears only
at a strictly positive index. -/
theorem c7_theorem (item : JVal) (text : String) (res : List String)
    (hj : searchWord "jingdezhen" (pyLower text).data = true)
    (_hc : searchWord "china" (pyLower text).data = true)
    (h : extractProductionPlace item text = Except.ok res) :
    res.head? = some "jingdezhen" ∧ ∀ i : Nat, res[i]? = some "china" → 0 < i := by
  have htext : text ≠ "" := by
    intro he
    rw [he] at hj
    exact absurd hj (by decide)
  obtain ⟨s0, _, hres⟩ := extractProductionPlace_ok_shape h
  have h1 : "jingdezhen" ∈ prodKeywordLoop s0 (pyLower text).data := by
    exact @mem_prodLoopGo_hit "jingdezhen"
      ["jingdezhen", "jiangxi", "imperial kiln", "porcelain capital", "ching-te-chen"]
      productionKeywords s0 ((pyLower text).data) (by decide)
      (List.any_eq_true.mpr ⟨"jingdezhen", by decide, hj⟩)
  have hjmem : "jingdezhen" ∈ textPlaces s0 text := by
    unfold textPlaces
    rw [if_neg htext]
    exact mem_textPlaces_aux _ _ _ _ _ h1
  have hclean : "jingdezhen" ∈ cleanupPlaces (textPlaces s0 text) :=
    mem_cleanupPlaces_of_mem (by decide) (by decide) hjmem
  obtain ⟨rest, hrest⟩ := prioritizePlaces_jingdezhen hclean
  rw [hres, hrest]
  refine ⟨rfl, ?_⟩
  intro i hi
  cases i with
  | zero =>
    rw [List.getElem?_cons_zero] at hi
    exact absurd hi (by decide)
  | succ n => exact Nat.succ_pos n

/-- C7 witness: on the plain text `jingdezhen china` the result starts with
`jingdezhen` and lists `china` strictly later. -/
theorem c7_witness :
    ∃ res, extractProductionPlace (JVal.dict []) "jingdezhen china" = Except.ok res ∧
      res.head? = some "jingdezhen" ∧ ∀ i : Nat, res[i]? = some "china" → 0 < i := by
  obtain ⟨res, hres⟩ :=
    exists_ok_of_isOk (x := extractProductionPlace (JVal.dict []) "jingdezhen china") (by rfl)
  exact ⟨res, hres, c7_theorem _ _ res (by rfl) (by rfl) hres⟩

/-! ## Claim C8: extractor output caps -/

/-- C8 (confirmed): every extractor output obeys its cap — decorations at
most 15 entries, shapes at most 5, glazes at most 5, production places at
most 10, inscriptions at most 5, for every text and item. -/
theorem c8_theorem (item : JVal) (text : String) :
    (extractDecorations text).length ≤ 15 ∧
    (extractShape text).length ≤ 5 ∧
    (extractGlaze text).length ≤ 5 ∧
    (∀ res, extractProductionPlace item text = Except.ok res → res.length ≤ 10) ∧
    (extractInscriptions text).length ≤ 5 := by
  refine ⟨?_, ?_, ?_, ?_, ?_⟩
  · unfold extractDecorations
    split
    · simp
    · exact take_len_le _ _
  · unfold extractShape
    split
    · simp
    · exact take_len_le _ _
  · unfold extractGlaze
    split
    · simp
    · exact take_len_le _ _
  · intro res h
    obtain ⟨s0, _, hres⟩ := extractProductionPlace_ok_shape h
    rw [hres]
    exact take_len_le _ _
  · unfold extractInscriptions
    split
    · simp
    · exact take_len_le _ _

/-- C8 witness: the caps at the empty text and item, with the production
place clause applied at its concrete (empty) result. -/
theorem c8_witness :
    (extractDecorations "").length ≤ 15 ∧
    (extractShape "").length ≤ 5 ∧
    (extractGlaze "").length ≤ 5 ∧
    ([] : List String).length ≤ 10 ∧
    (extractInscriptions "").length ≤ 5 :=
  ⟨(c8_theorem (.dict []) "").1, (c8_theorem (.dict []) "").2.1,
   (c8_theorem (.dict []) "").2.2.1, (c8_theorem (.dict []) "").2.2.2.1 [] rfl,
   (c8_theorem (.dict []) "").2.2.2.2⟩

/-! ## Claim C10: duplicated field pairs agree -/

/-- C10 (confirmed): in every successfully built descriptive bundle, `Paste`
equals `PasteMaterial` and `ProductionPlace` equals
`ProductionPlaceLocation`, each pair being two calls of the same pure
extractor on the same input. -/
theorem c10_theorem (item : JVal) (text : String) (lda : Option (List JVal)) (d : DescMeta)
    (h : mapToDescriptiveMetadata item text lda = Except.ok d) :
    d.Paste = d.PasteMaterial ∧ d.ProductionPlace = d.ProductionPlaceLocation := by
  unfold mapToDescriptiveMetadata at h
  cases hpp : extractProductionPlace item text with
  | error e =>
    rw [hpp] at h
    exact Except.noConfusion h
  | ok v =>
    rw [hpp] at h
    have h2 := Except.ok.inj h
    rw [← h2]
    exact ⟨rfl, rfl⟩

/-- C10 witness: the bundle built from the empty item and text has equal
`Paste`/`PasteMaterial` and `ProductionPlace`/`ProductionPlaceLocation`. -/
theorem c10_witness :
    ∃ d, mapToDescriptiveMetadata (JVal.dict []) "" none = Except.ok d ∧
      d.Paste = d.PasteMaterial ∧ d.ProductionPlace = d.ProductionPlaceLocation := by
  obtain ⟨d, hd⟩ :=
    exists_ok_of_isOk (x := mapToDescriptiveMetadata (JVal.dict []) "" none) (by rfl)
  exact ⟨d, hd, c10_theorem _ _ _ d hd⟩

/-! ## Claim C2: period and year deduplication and caps -/

theorem uniqueYearsLoop_nodup : ∀ (l acc : List Int), acc.Nodup →
    (uniqueYearsLoop acc l).Nodup := by
  intro l
  induction l with
  | nil => intro acc h; exact h
  | cons y ys ih =>
    intro acc h
    unfold uniqueYearsLoop
    split
    · rename_i hc
      apply ih
      rw [List.nodup_append]
      refine ⟨h, List.nodup_singleton y, ?_⟩
      intro a ha hay
      rw [List.mem_singleton] at hay
      subst hay
      exact hc.2.2 ha
    · exact ih acc h

theorem mem_uniqueYearsLoop : ∀ (l acc : List Int) (x : Int),
    x ∈ uniqueYearsLoop acc l → x ∈ acc ∨ (1000 ≤ x ∧ x ≤ 2025) := by
  intro l
  induction l with
  | nil => intro acc x h; exact Or.inl h
  | cons y ys ih =>
    intro acc x h
    unfold uniqueYearsLoop at h
    split at h
    · rename_i hc
      rcases ih _ x h with h1 | h2
      · rcases List.mem_append.mp h1 with ha | hy
        · exact Or.inl ha
        · rw [List.mem_singleton] at hy
          subst hy
          exact Or.inr ⟨hc.1, hc.2.1⟩
      · exact Or.inr h2
    · exact ih acc x h

theorem mem_uniquePeriodsLoop : ∀ (l acc seen : List String) (p : String),
    p ∈ uniquePeriodsLoop acc seen l → p ∈ acc ∨ (p ≠ "" ∧ p.length < 50) := by
  intro l
  induction l with
  | nil => intro acc seen p h; exact Or.inl h
  | cons q qs ih =>
    intro acc seen p h
    unfold uniquePeriodsLoop at h
    split at h
    · rename_i hc
      rcases ih _ _ p h with h1 | h2
      · rcases List.mem_append.mp h1 with ha | hq
        · exact Or.inl ha
        · rw [List.mem_singleton] at hq
          subst hq
          exact Or.inr ⟨hc.1, hc.2.2⟩
      · exact Or.inr h2
    · exact ih _ _ p h

/-- A successful `extract_period_info` run produces its period and year lists
through the two deduplication loops, and its summary through the caps. -/
theorem extractPeriodInfo_ok_shape {item : JVal} {pi : List String × List Int × PeriodSummary}
    (h : extractPeriodInfo item = .ok pi) :
    ∃ (years0 : List Int) (periods1 : List String),
      pi.1 = uniquePeriodsLoop [] [] periods1 ∧
      pi.2.1 = uniqueYearsLoop [] years0 ∧
      pi.2.2.periods = (uniquePeriodsLoop [] [] periods1).take 5 ∧
      pi.2.2.years = (sortInts (uniqueYearsLoop [] years0)).take 10 := by
  unfold extractPeriodInfo at h
  obtain ⟨pd, hg, h⟩ := except_bind_ok_inv h
  obtain ⟨pstrs, hb, h⟩ := except_bind_ok_inv h
  have h2 := Except.ok.inj h
  subst h2
  exact ⟨_, _, rfl, rfl, rfl, rfl⟩

/-- A successful `map_to_management_metadata` run stores the period-info
components unchanged. -/
theorem mapMgmt_ok_shape {item : JVal} {m : MgmtMeta}
    (h : mapToManagementMetadata item = .ok m) :
    ∃ pi, extractPeriodInfo item = .ok pi ∧
      m.Period = pi.1 ∧ m.Years = pi.2.1 ∧ m.PeriodSummaryData = pi.2.2 := by
  unfold mapToManagementMetadata at h
  cases hpi : extractPeriodInfo item with
  | error e => rw [hpi] at h; exact Except.noConfusion h
  | ok pi =>
    rw [hpi] at h
    cases item with
    | dict kvs =>
      have h2 := Except.ok.inj h
      exact ⟨pi, rfl, by rw [← h2], by rw [← h2], by rw [← h2]⟩
    | null => exact Except.noConfusion hpi
    | bool b => exact Except.noConfusion hpi
    | int n => exact Except.noConfusion hpi
    | str s => exact Except.noConfusion hpi
    | list xs => exact Except.noConfusion hpi

/-- C2 counterexample: an item whose timespan labels repeat `Ming dynasty`
twice and list eleven distinct years stores `["Ming", "Ming"]` — two entries
equal even without ignoring case — and eleven years, breaching the claimed
5- and 10-entry caps on the stored fields. -/
theorem c2_counterexample :
    (mapToManagementMetadata c2Item).map (fun m => (m.Period, m.Years.length)) =
      .ok (["Ming", "Ming"], 11) := by rfl

/-- C2 (amended): in every successfully stored management bundle the `Years`
list holds pairwise-distinct integers in `[1000, 2025]` in first-discovery
order but is not capped; the `Period` list holds non-empty entries shorter
than 50 characters, deduplicated only by exact match against the set of
previously seen lower-cased entries (so a repeated capitalized entry can
survive) and also uncapped; the 5- and 10-entry caps apply to the
`PeriodSummary.periods` and `PeriodSummary.years` fields instead. -/
theorem c2_theorem (item : JVal) (m : MgmtMeta)
    (h : mapToManagementMetadata item = Except.ok m) :
    m.Years.Nodup ∧ (∀ y ∈ m.Years, 1000 ≤ y ∧ y ≤ 2025) ∧
    (∀ p ∈ m.Period, p ≠ "" ∧ p.length < 50) ∧
    m.PeriodSummaryData.periods.length ≤ 5 ∧
    m.PeriodSummaryData.years.length ≤ 10 := by
  obtain ⟨pi, hpi, hP, hY, hS⟩ := mapMgmt_ok_shape h
  obtain ⟨y0, p1, e1, e2, e3, e4⟩ := extractPeriodInfo_ok_shape hpi
  refine ⟨?_, ?_, ?_, ?_, ?_⟩
  · rw [hY, e2]
    exact uniqueYearsLoop_nodup _ _ List.nodup_nil
  · intro y hy
    rw [hY, e2] at hy
    rcases mem_uniqueYearsLoop _ _ _ hy with h1 | h2
    · simp at h1
    · exact h2
  · intro p hp
    rw [hP, e1] at hp
    rcases mem_uniquePeriodsLoop _ _ _ _ hp with h1 | h2
    · simp at h1
    · exact h2
  · rw [hS, e3]
    exact take_len_le _ _
  · rw [hS, e4]
    exact take_len_le _ _

/-- C2 witness: the empty item stores empty, trivially deduplicated lists
and capped summary fields. -/
theorem c2_witness :
    ∃ m, mapToManagementMetadata (JVal.dict []) = Except.ok m ∧
      m.Years.Nodup ∧ m.PeriodSummaryData.periods.length ≤ 5 ∧
      m.PeriodSummaryData.years.length ≤ 10 := by
  obtain ⟨m, hm⟩ := exists_ok_of_isOk (x := mapToManagementMetadata (JVal.dict [])) (by rfl)
  have h := c2_theorem _ m hm
  exact ⟨m, hm, h.1, h.2.2.2.1, h.2.2.2.2⟩

/-! ## Claim C3: extractors do not raise -/

theorem normalizePlaceVal_ok {v : JVal} (h : defValOk (some v) = true) :
    ∃ n, normalizePlaceVal v = .ok n := by
  cases v with
  | str s => exact ⟨normalizePlace s, rfl⟩
  | null => exact ⟨none, rfl⟩
  | bool b =>
    simp only [defValOk, Bool.not_eq_true'] at h
    exact ⟨none, by simp [normalizePlaceVal, h]⟩
  | int n =>
    simp only [defValOk, Bool.not_eq_true'] at h
    exact ⟨none, by simp [normalizePlaceVal, h]⟩
  | list xs =>
    simp only [defValOk, Bool.not_eq_true'] at h
    exact ⟨none, by simp [normalizePlaceVal, h]⟩
  | dict kvs =>
    simp only [defValOk, Bool.not_eq_true'] at h
    exact ⟨none, by simp [normalizePlaceVal, h]⟩

theorem defValOk_of_strPlaceOk {p : String} (h : strPlaceOk p = true) :
    defValOk (some (match jsonDefVal p with | some v => v | none => JVal.str p)) = true := by
  unfold strPlaceOk at h
  unfold jsonDefVal
  split at h
  · rename_i hg
    rw [if_pos hg]
    cases hj : jsonLoadsModel (replaceChar '\x27' '"' p) with
    | none => rw [hj] at h; exact absurd h (by decide)
    | some jv =>
      rw [hj] at h
      cases jv with
      | dict kvs =>
        dsimp only at h ⊢
        cases hl : jlookup kvs "def" with
        | none => rfl
        | some v => rw [hl] at h; exact h
      | null => rfl
      | bool b => rfl
      | int n => rfl
      | str s => rfl
      | list xs => rfl
  · rename_i hg
    rw [if_neg hg]
    rfl

theorem placeStrLoop_ok : ∀ (l acc : List String), l.all strPlaceOk = true →
    ∃ r, placeStrLoop acc l = .ok r := by
  intro l
  induction l with
  | nil => intro acc _; exact ⟨acc, rfl⟩
  | cons p ps ih =>
    intro acc hall
    rw [List.all_cons, Bool.and_eq_true] at hall
    unfold placeStrLoop
    by_cases hp : p = ""
    · rw [if_neg (not_not_intro hp)]
      exact ih acc hall.2
    · rw [if_pos hp]
      obtain ⟨n, hn⟩ := normalizePlaceVal_ok (defValOk_of_strPlaceOk hall.1)
      rw [bind_eq_ok hn]
      exact ih (addNormalized acc n) hall.2

theorem processPlaceField_ok {ov : Option JVal} (acc : List String)
    (h : placeFieldOk ov = true) : ∃ r, processPlaceField acc ov = .ok r := by
  cases ov with
  | none => exact ⟨acc, rfl⟩
  | some v =>
    cases v with
    | list xs =>
      simp only [placeFieldOk] at h
      exact placeStrLoop_ok _ acc h
    | str s =>
      by_cases hs : s = ""
      · refine ⟨acc, ?_⟩
        unfold processPlaceField
        dsimp only
        rw [if_neg (not_not_intro hs)]
      · refine ⟨addNormalized acc (normalizePlace s), ?_⟩
        unfold processPlaceField
        dsimp only
        rw [if_pos hs]
        rfl
    | dict d =>
      simp only [placeFieldOk] at h
      cases hl : jlookup d "def" with
      | none =>
        refine ⟨acc, ?_⟩
        unfold processPlaceField
        dsimp only
        rw [hl]
      | some v2 =>
        rw [hl] at h
        obtain ⟨n, hn⟩ := normalizePlaceVal_ok h
        refine ⟨addNormalized acc n, ?_⟩
        unfold processPlaceField
        dsimp only
        rw [hl]
        dsimp only
        rw [bind_eq_ok hn]
    | null => exact ⟨acc, rfl⟩
    | bool b => exact ⟨acc, rfl⟩
    | int n => exact ⟨acc, rfl⟩

theorem fieldPlacesLoop_ok {kvs : List (String × JVal)} : ∀ (fs acc : List String),
    (∀ f ∈ fs, placeFieldOk (jlookup kvs f) = true) →
    ∃ r, fieldPlacesLoop (.dict kvs) acc fs = .ok r := by
  intro fs
  induction fs with
  | nil => intro acc _; exact ⟨acc, rfl⟩
  | cons f ft ih =>
    intro acc hall
    obtain ⟨r1, hr1⟩ := processPlaceField_ok acc (hall f (List.mem_cons_self f ft))
    obtain ⟨r2, hr2⟩ := ih r1 (fun g hg => hall g (List.mem_cons_of_mem f hg))
    refine ⟨r2, ?_⟩
    unfold fieldPlacesLoop
    rw [bind_eq_ok (show fieldLookupE (JVal.dict kvs) f = .ok (jlookup kvs f) from rfl),
      bind_eq_ok hr1]
    exact hr2

theorem periodDataOk_of_falsy {v : JVal} (h : truthy v = false) : periodDataOk v = true := by
  cases v with
  | null => rfl
  | bool b => rfl
  | int n => rfl
  | str s => rfl
  | list xs =>
    simp only [truthy, Bool.not_eq_false'] at h
    rw [List.isEmpty_iff] at h
    subst h
    rfl
  | dict kvs =>
    simp only [truthy, Bool.not_eq_false'] at h
    rw [List.isEmpty_iff] at h
    subst h
    rfl

theorem getPeriodData_ok {kvs : List (String × JVal)} (h : mfmPeriodOk kvs = true) :
    ∃ pd, getPeriodData (JVal.dict kvs) = .ok pd ∧ periodDataOk pd = true := by
  unfold mfmPeriodOk at h
  unfold getPeriodData
  rw [bind_eq_ok (show pyGetE (JVal.dict kvs) "Metadata_for_Management" (JVal.dict []) =
    .ok ((jlookup kvs "Metadata_for_Management").getD (JVal.dict [])) from rfl)]
  split at h
  · rename_i mkvs heq
    rw [heq]
    dsimp only [Option.getD]
    rw [bind_eq_ok (show pyGetE (JVal.dict mkvs) "Period" (JVal.str "") =
      .ok ((jlookup mkvs "Period").getD (JVal.str "")) from rfl)]
    by_cases ht : truthy ((jlookup mkvs "Period").getD (JVal.str "")) = true
    · rw [if_pos ht] at h
      rw [if_pos ht]
      exact ⟨_, rfl, h⟩
    · rw [if_neg ht] at h
      rw [if_neg ht]
      rw [show jget (JVal.dict kvs) "edmTimespanLabel" = jlookup kvs "edmTimespanLabel"
        from rfl]
      split at h
      · rename_i v heq2
        exact ⟨v, rfl, h⟩
      · rename_i heq2
        exact ⟨_, rfl, periodDataOk_of_falsy (Bool.not_eq_true _ ▸ ht)⟩
  · simp at h
  · rename_i heq
    rw [heq]
    dsimp only [Option.getD]
    rw [bind_eq_ok (show pyGetE (JVal.dict []) "Period" (JVal.str "") =
      .ok (JVal.str "") from rfl)]
    rw [if_neg (by decide)]
    rw [show jget (JVal.dict kvs) "edmTimespanLabel" = jlookup kvs "edmTimespanLabel"
      from rfl]
    split at h
    · rename_i v heq2
      exact ⟨v, rfl, h⟩
    · rename_i heq2
      exact ⟨.str "", rfl, rfl⟩

theorem periodStringsOfList_ok : ∀ (xs : List JVal), xs.all periodElemOk = true →
    ∃ r, periodStringsOfList xs = .ok r := by
  intro xs
  induction xs with
  | nil => intro _; exact ⟨[], rfl⟩
  | cons x xt ih =>
    intro hall
    rw [List.all_cons, Bool.and_eq_true] at hall
    obtain ⟨r, hr⟩ := ih hall.2
    cases x with
    | str s =>
      unfold periodStringsOfList
      rw [bind_eq_ok hr]
      split
      · exact ⟨_, rfl⟩
      · exact ⟨_, rfl⟩
    | dict d =>
      have hok := hall.1
      simp only [periodElemOk] at hok
      cases hl : jlookup d "def" with
      | none =>
        unfold periodStringsOfList
        rw [hl]
        exact ⟨r, hr⟩
      | some v =>
        rw [hl] at hok
        cases v with
        | str s2 =>
          unfold periodStringsOfList
          rw [hl]
          dsimp only
          rw [bind_eq_ok (show stripJStr (JVal.str s2) = .ok (pyStrip s2) from rfl),
            bind_eq_ok hr]
          split
          · exact ⟨_, rfl⟩
          · exact ⟨_, rfl⟩
        | null => simp at hok
        | bool b => simp at hok
        | int n => simp at hok
        | list ys => simp at hok
        | dict d2 => simp at hok
    | null => exact ⟨r, hr⟩
    | bool b => exact ⟨r, hr⟩
    | int n => exact ⟨r, hr⟩
    | list ys => exact ⟨r, hr⟩

theorem buildPeriodStrings_ok {pd : JVal} (h : periodDataOk pd = true) :
    ∃ r, buildPeriodStrings pd = .ok r := by
  cases pd with
  | list xs =>
    simp only [periodDataOk] at h
    exact periodStringsOfList_ok xs h
  | str s =>
    unfold buildPeriodStrings
    dsimp only
    split
    · split
      · exact ⟨_, rfl⟩
      · exact ⟨_, rfl⟩
    · exact ⟨_, rfl⟩
  | dict d =>
    simp only [periodDataOk, periodElemOk] at h
    cases hl : jlookup d "def" with
    | none =>
      unfold buildPeriodStrings
      dsimp only
      rw [hl]
      exact ⟨[], rfl⟩
    | some v =>
      rw [hl] at h
      cases v with
      | str s2 =>
        unfold buildPeriodStrings
        dsimp only
        rw [hl]
        dsimp only
        rw [bind_eq_ok (show stripJStr (JVal.str s2) = .ok (pyStrip s2) from rfl)]
        split
        · exact ⟨_, rfl⟩
        · exact ⟨_, rfl⟩
      | null => simp at h
      | bool b => simp at h
      | int n => simp at h
      | list ys => simp at h
      | dict d2 => simp at h
  | null => exact ⟨[], rfl⟩
  | bool b => exact ⟨[], rfl⟩
  | int n => exact ⟨[], rfl⟩

/-- C3 counterexample: `extract_production_place` raises `AttributeError`
on an item whose place field is a dict wrapper with the non-string `def`
value `123` (the claim asserted no extractor raises even then), and likewise
on a flattened wrapper string with a duplicated `def` key whose last —
hence effective — value is the truthy non-string `1`. -/
theorem c3_counterexample :
    extractProductionPlace (.dict [("place", .dict [("def", JVal.int 123)])]) "" =
      .error "AttributeError" ∧
    extractProductionPlace
        (.dict [("place", .list [JVal.str "\x7b\x27def\x27: 0, \x27def\x27: 1\x7d"])]) "" =
      .error "AttributeError" := by
  refine ⟨rfl, ?_⟩
  with_unfolding_all rfl

/-- C3 (amended): the text extractors return an empty list on empty input,
and the two item extractors return a result rather than raising provided the
dict-wrapper `def` values they reach are strings (for the place fields,
strings or falsy values; a wrapper-looking place string must parse to a flat
object under the same condition) and the `Metadata_for_Management` value,
when present, is a dict. -/
theorem c3_theorem (kvs : List (String × JVal)) (text : String) :
    (placesDefOk kvs = true → (extractProductionPlace (.dict kvs) text).isOk = true) ∧
    (mfmPeriodOk kvs = true → (extractPeriodInfo (.dict kvs)).isOk = true) ∧
    (extractColoredDrawing "" = [] ∧ extractDecorations "" = [] ∧ extractShape "" = [] ∧
     extractFunction "" = [] ∧ extractMaterial "" = [] ∧ extractGlaze "" = [] ∧
     extractInscriptions "" = []) ∧
    extractProductionPlace (.dict []) "" = .ok [] ∧
    (extractPeriodInfo (.dict [])).map (fun r => (r.1, r.2.1)) = .ok ([], []) := by
  refine ⟨?_, ?_, ⟨rfl, rfl, rfl, rfl, rfl, rfl, rfl⟩, rfl, rfl⟩
  · intro hplaces
    have hall : ∀ f ∈ placeFields, placeFieldOk (jlookup kvs f) = true := by
      intro f hf
      exact List.all_eq_true.mp hplaces f hf
    obtain ⟨s0, hs0⟩ := fieldPlacesLoop_ok placeFields [] hall
    unfold extractProductionPlace
    rw [bind_eq_ok hs0]
    rfl
  · intro hmfm
    obtain ⟨pd, hpd, hdok⟩ := getPeriodData_ok hmfm
    obtain ⟨ps, hps⟩ := buildPeriodStrings_ok hdok
    unfold extractPeriodInfo
    rw [bind_eq_ok hpd, bind_eq_ok hps]
    rfl

/-- C3 witness: a string place field and a timespan label satisfy the safety
conditions, so both item extractors succeed. -/
theorem c3_witness :
    (extractProductionPlace (.dict [("place", JVal.str "Delft")]) "vase").isOk = true ∧
    (extractPeriodInfo (.dict [("place", JVal.str "Delft")])).isOk = true :=
  ⟨(c3_theorem [("place", JVal.str "Delft")] "vase").1 (by decide),
   (c3_theorem [("place", JVal.str "Delft")] "vase").2.1 (by decide)⟩

/-! ## Claim C9: per-item error containment -/

/-- C9 counterexample: on a non-dict item even the `except` handler's own
`item.get('id', ...)` raises, so `process_item` itself raises
`AttributeError` instead of returning a degraded result. -/
theorem c9_counterexample :
    processItem "t" (JVal.int 5) "" none = .error "AttributeError" := by rfl

/-- C9 (amended): for every dict item, `process_item` returns a value rather
than raising: the complete result when the bundle construction succeeds, and
otherwise a degraded result that preserves the item's `id`, has empty
descriptive/management/extended bundles, and carries the error string in its
processing metadata. -/
theorem c9_theorem (now : String) (kvs : List (String × JVal)) (text : String)
    (lda : Option (List JVal)) :
    (∃ r, processItem now (.dict kvs) text lda = .ok r) ∧
    (∀ v, processItemCore now (.dict kvs) text lda = .ok v →
      processItem now (.dict kvs) text lda = .ok v) ∧
    (∀ e, processItemCore now (.dict kvs) text lda = .error e →
      processItem now (.dict kvs) text lda =
        .ok ⟨(jlookup kvs "id").getD (.str ""), none, none, none, ⟨now, none, some e⟩⟩) := by
  unfold processItem
  cases hc : processItemCore now (.dict kvs) text lda with
  | ok v =>
    refine ⟨⟨v, rfl⟩, ?_, ?_⟩
    · intro v2 hv2
      rw [Except.ok.inj hv2]
    · intro e he
      exact Except.noConfusion he
  | error e =>
    refine ⟨⟨_, rfl⟩, ?_, ?_⟩
    · intro v2 hv2
      exact Except.noConfusion hv2
    · intro e2 he2
      rw [← Except.error.inj he2]
      rfl

/-- C9 witness: a dict item whose place field carries a non-string `def`
value makes the bundle construction fail, and `process_item` returns the
degraded result with the preserved (defaulted) id and the error string. -/
theorem c9_witness :
    processItem "t" (.dict [("place", JVal.dict [("def", JVal.int 1)])]) "" none =
      .ok ⟨JVal.str "", none, none, none, ⟨"t", none, some "AttributeError"⟩⟩ := by
  have hv := c9_theorem
  have h := (hv "t" [("place", JVal.dict [("def", JVal.int 1)])] "" none).2.2
    "AttributeError" (by rfl)
  exact h

end DH
